import Mathlib

/-!
# Verification of the SFS block filesystem core

This file shallowly embeds the core of the SFS filesystem (`src/fs.rs`,
`src/inode.rs`, `src/directory.rs`, `src/superblock.rs`, `src/disk.rs`) in
Lean 4 and proves (or refutes) the frozen claims about it.

Modelling conventions, chosen to mirror the Rust source:

* The block device is the `Vec<u8>`-backed virtual disk (`Disk::new_virtual`):
  a total byte function `bytes : Nat → Nat` together with its length `size`.
  `read_lossy`/`write_lossy` clip at `size`, exactly as the `impl IO for
  Vec<u8>` does; `read_exact`/`write_exact` fail with `NotEnoughSpace` on a
  short transfer (the partial write having happened, as in Rust).
* Machine integers are `Nat`s; stored bytes are reduced `% 256` on write, as
  a `u8` store is.  Multi-byte integers are little-endian, matching the raw
  `read_struct`/`write_struct` memory copies on a little-endian machine.
* Inode slots are held in a side table `inodes : Nat → InodeM` keyed by slot
  number (`read_struct::<Inode>`/`write_struct` are memory copies of a fixed
  record; no execution path considered here reads an inode slot as raw data
  bytes or vice versa).  Slot I/O still fails past the end of the device,
  like `write_struct` would.
* The persisted superblock (block 1) is held in a side field `persisted`;
  `write_superblock` copies the in-memory superblock there and fails with
  `FailSuperblockWrite` when block 1 does not fit on the device.  No claim
  re-reads the superblock bytes from the byte store.
* `SystemTime::now()` is passed in as an explicit `now : Nat` argument.
* Rust panics (out-of-range slice indexing, `u32` underflow in a debug
  build) are modelled as an explicit `panic` outcome.
* All loops are given explicit structural fuel so that every definition is
  executable and kernel-reducible; fuel bounds are chosen so that the fuel
  can never run out on the executions considered.
-/

set_option maxRecDepth 100000

/-- `DiskError` from `src/disk.rs`. -/
inductive DiskErrM where
  | NotEnoughSpace
  | GenericError
deriving DecidableEq, Repr

/-- `FsError` from `src/fs.rs`. -/
inductive FsErrM where
  | DiskError (e : DiskErrM)
  | InvalidSignature
  | NameTooLong
  | InvalidBlock
  | NoEntry
  | NoSpace
  | FailSuperblockWrite
deriving DecidableEq, Repr

deriving instance DecidableEq for Except

/-- The byte-addressed block device: the `Vec<u8>` virtual disk of
`src/disk.rs` (`bytes i` for `i < size` are the stored bytes). -/
structure DiskM where
  bytes : Nat → Nat
  size : Nat

namespace DiskM

/-- `read_lossy`: reads up to `n` bytes at `addr`, clipping at the end of
the device; returns the number of bytes read and their values. -/
def readLossy (d : DiskM) (addr n : Nat) : Nat × List Nat :=
  let c := min n (d.size - addr)
  (c, (List.range c).map fun i => d.bytes (addr + i))

/-- `write_lossy`: writes `buf` at `addr`, clipping at the end of the
device; returns the updated store and the number of bytes written. -/
def writeLossy (d : DiskM) (addr : Nat) (buf : List Nat) : DiskM × Nat :=
  let c := min buf.length (d.size - addr)
  ({ d with bytes := fun x =>
      if addr ≤ x ∧ x < addr + c then buf.getD (x - addr) 0 % 256 else d.bytes x }, c)

/-- `read_exact`: fails with `NotEnoughSpace` when fewer than `n` bytes
could be read. -/
def readExact (d : DiskM) (addr n : Nat) : Except DiskErrM (List Nat) :=
  let r := d.readLossy addr n
  if r.1 = n then .ok r.2 else .error .NotEnoughSpace

/-- `write_exact`: fails with `NotEnoughSpace` when fewer than `len(buf)`
bytes could be written (the partial write persists, as in Rust). -/
def writeExact (d : DiskM) (addr : Nat) (buf : List Nat) : DiskM × Except DiskErrM Unit :=
  let r := d.writeLossy addr buf
  if r.2 = buf.length then (r.1, .ok ()) else (r.1, .error .NotEnoughSpace)

/-- `read_struct::<u8>`. -/
def readU8 (d : DiskM) (addr : Nat) : Except DiskErrM Nat :=
  if addr < d.size then .ok (d.bytes addr) else .error .NotEnoughSpace

/-- `write_struct::<u8>`. -/
def writeU8 (d : DiskM) (addr v : Nat) : DiskM × Except DiskErrM Unit :=
  if addr < d.size then
    ({ d with bytes := fun x => if x = addr then v % 256 else d.bytes x }, .ok ())
  else (d, .error .NotEnoughSpace)

/-- Value of a little-endian byte list. -/
def leVal : List Nat → Nat
  | [] => 0
  | b :: bs => b % 256 + 256 * leVal bs

/-- `read_struct::<u32>` (little-endian memory copy). -/
def readU32 (d : DiskM) (addr : Nat) : Except DiskErrM Nat :=
  match d.readExact addr 4 with
  | .error e => .error e
  | .ok bs => .ok (leVal bs)

/-- `write_struct::<u32>` (little-endian memory copy). -/
def writeU32 (d : DiskM) (addr v : Nat) : DiskM × Except DiskErrM Unit :=
  d.writeExact addr [v % 256, v / 256 % 256, v / 65536 % 256, v / 16777216 % 256]

end DiskM

/-- `BlockArrayEntry` from `src/fs.rs`. -/
inductive BlockArrayEntry where
  | BlockArrayDescriptor
  | Unused
  | InodeBlock
  | Allocated
deriving DecidableEq, Repr

/-- `BLOCKS_PER_BLOCKARRAY`. -/
def BLOCKS_PER_BLOCKARRAY : Nat := 2048 * 8

namespace BlockArrayDescriptor

/-- `BlockArrayDescriptor::get`: `seg` is the descriptor index (field `1` of
the Rust struct), `index` the block index inside the segment.  Byte
addresses mirror the source: `index/8 + seg * BLOCKS_PER_BLOCKARRAY` for the
usage bitmap and `+ 2048` for the kind bitmap. -/
def get (d : DiskM) (seg index : Nat) : Except DiskErrM BlockArrayEntry :=
  if index = 0 then .ok .BlockArrayDescriptor
  else
    let blockIndex := index / 8
    match d.readU8 (blockIndex + seg * BLOCKS_PER_BLOCKARRAY) with
    | .error e => .error e
    | .ok usage =>
      if usage.testBit (index % 8) = false then .ok .Unused
      else
        match d.readU8 (blockIndex + seg * BLOCKS_PER_BLOCKARRAY + 2048) with
        | .error e => .error e
        | .ok kind =>
          if kind.testBit (index % 8) then .ok .InodeBlock else .ok .Allocated

/-- `BlockArrayDescriptor::set`: ignores `index ≥ BLOCKS_PER_BLOCKARRAY`,
coerces `index = 0` to `BlockArrayDescriptor` and a descriptor written
elsewhere to `Allocated`, then updates the usage bit (`set iff kind ≠
Unused`) and the kind bit (`set iff kind = InodeBlock`). -/
def set (d : DiskM) (seg index : Nat) (typ : BlockArrayEntry) :
    DiskM × Except DiskErrM Unit :=
  if BLOCKS_PER_BLOCKARRAY ≤ index then (d, .ok ())
  else
    let typ := if index = 0 then .BlockArrayDescriptor
               else if typ = .BlockArrayDescriptor then .Allocated else typ
    let blockIndex := index / 8 + seg * BLOCKS_PER_BLOCKARRAY
    let off := index % 8
    match d.readU8 blockIndex with
    | .error e => (d, .error e)
    | .ok usage =>
      match d.readU8 (blockIndex + 2048) with
      | .error e => (d, .error e)
      | .ok kind =>
        let usage := if typ ≠ .Unused then usage ||| (1 <<< off)
                     else usage &&& (255 ^^^ (1 <<< off))
        let kind := if typ = .InodeBlock then kind ||| (1 <<< off)
                    else kind &&& (255 ^^^ (1 <<< off))
        match d.writeU8 blockIndex usage with
        | (d, .error e) => (d, .error e)
        | (d, .ok _) => d.writeU8 (blockIndex + 2048) kind

end BlockArrayDescriptor

/-- A small all-zero disk used by witnesses. -/
def dW : DiskM := ⟨fun _ => 0, 8192⟩

/-- `INODE_SIZE` from `src/fs.rs`. -/
def INODE_SIZE : Nat := 128

/-- `BLOCK_SIZE` from `src/fs.rs`. -/
def BLOCK_SIZE : Nat := 4096

/-- `INODES_PER_BLOCK` from `src/fs.rs`. -/
def INODES_PER_BLOCK : Nat := BLOCK_SIZE / INODE_SIZE

/-- `size_of::<Superblock>()` under `repr(C)`: 8 (signature) + 5×4 (u32s) +
4 (padding) + 2×8 (u64s) + 32 (name) + 2 (u8s) + 2 (padding) + 4
(root_inode) = 88 bytes; `write_superblock` writes this many bytes at
offset 4096. -/
def SB_SIZE : Nat := 88

/-- The `Superblock` record of `src/superblock.rs`. -/
structure SuperblockM where
  signature : List Nat
  earliest_free : Nat
  earliest_inode_space : Nat
  last_free : Nat
  total_unused : Nat
  total_blocks : Nat
  last_mount : Nat
  last_write : Nat
  name : List Nat
  file_prealloc : Nat
  dir_prealloc : Nat
  root_inode : Nat
deriving DecidableEq, Repr

/-- `SUPERBLOCK_SIGNATURE_SFS = b"SFs sblk"`. -/
def SFS_SIGNATURE : List Nat := [83, 70, 115, 32, 115, 98, 108, 107]

/-- `Superblock::new` (`now` stands for `SystemTime::now()` in seconds). -/
def Superblock.new (name : List Nat) (numBlocks now : Nat) : Except FsErrM SuperblockM :=
  if 32 < name.length then .error .NameTooLong
  else .ok {
    signature := SFS_SIGNATURE
    name := name.take 32 ++ List.replicate (32 - name.length) 0
    dir_prealloc := 1
    file_prealloc := 1
    last_free := numBlocks - 1
    earliest_free := 2
    earliest_inode_space := 0
    last_mount := now
    last_write := now
    total_blocks := numBlocks
    total_unused :=
      numBlocks - 1 - (numBlocks + BLOCKS_PER_BLOCKARRAY - 1) / BLOCKS_PER_BLOCKARRAY
    root_inode := 0 }

/-- The `Inode` record of `src/inode.rs` (`type_and_permission` is the raw
`u16`; the 48 padding bytes carry no information). -/
structure InodeM where
  type_and_permission : Nat
  uid : Nat
  gid : Nat
  modification_time : Nat
  creation_time : Nat
  hardlinks : Nat
  block_pointers : List Nat
  singly_indirect_block_pointer : Nat
  doubly_indirect_block_pointer : Nat
  meta : Nat
deriving DecidableEq, Repr

/-- `Inode::create`. -/
def Inode.create (typePerm uid gid now hardlinks metaData : Nat) : InodeM :=
  { type_and_permission := typePerm
    uid := uid
    gid := gid
    modification_time := now
    creation_time := now
    hardlinks := hardlinks
    block_pointers := List.replicate 10 0
    singly_indirect_block_pointer := 0
    doubly_indirect_block_pointer := 0
    meta := metaData }

/-- `PermissionsAndType::get_type`: the high nibble of the permission word.
`InodeType::File` is `0x8000`, `Directory` is `0x4000`. -/
def InodeM.getType (ino : InodeM) : Nat := ino.type_and_permission &&& 0xf000

/-- The filesystem state: in-memory superblock, the raw byte device, the
inode slot table (see the header comment) and the persisted superblock
image of block 1. -/
structure FsM where
  sb : SuperblockM
  disk : DiskM
  inodes : Nat → InodeM
  persisted : SuperblockM

namespace FileSystem

/-- `FileSystem::pointer`. -/
def pointer (blockId : Nat) : Except FsErrM Nat :=
  if blockId % BLOCKS_PER_BLOCKARRAY = 0 then .error .InvalidBlock
  else .ok (blockId * BLOCK_SIZE)

/-- `FileSystem::write_superblock`: persists the in-memory superblock into
block 1 (fails with `FailSuperblockWrite` when block 1 is off-device). -/
def write_superblock (fs : FsM) : FsM × Except FsErrM Unit :=
  if 4096 + SB_SIZE ≤ fs.disk.size then ({ fs with persisted := fs.sb }, .ok ())
  else (fs, .error .FailSuperblockWrite)

/-- `FileSystem::clear_block`: `write_exact(pointer(blk), [0u8; 4096])`,
written in closed form (a clipped write zeroes the in-range prefix and
fails, exactly as the `Vec<u8>` device does). -/
def clear_block (fs : FsM) (blkId : Nat) : FsM × Except FsErrM Unit :=
  match pointer blkId with
  | .error e => (fs, .error e)
  | .ok p =>
    if p + BLOCK_SIZE ≤ fs.disk.size then
      ({ fs with disk := { fs.disk with bytes := fun x =>
          if p ≤ x ∧ x < p + BLOCK_SIZE then 0 else fs.disk.bytes x } }, .ok ())
    else
      ({ fs with disk := { fs.disk with bytes := fun x =>
          if p ≤ x ∧ x < fs.disk.size then 0 else fs.disk.bytes x } },
        .error (.DiskError .NotEnoughSpace))

/-- `FileSystem::free_block`. -/
def free_block (fs : FsM) (blockId : Nat) : FsM × Except FsErrM Unit :=
  if blockId = 0 then (fs, .error .InvalidBlock)
  else
    match (if blockId < fs.sb.earliest_free then
        write_superblock { fs with sb := { fs.sb with earliest_free := blockId } }
      else (fs, .ok ())) with
    | (fs, .error e) => (fs, .error e)
    | (fs, .ok _) =>
      match BlockArrayDescriptor.set fs.disk (blockId / BLOCKS_PER_BLOCKARRAY)
          (blockId % BLOCKS_PER_BLOCKARRAY) .Unused with
      | (d, .error e) => ({ fs with disk := d }, .error (.DiskError e))
      | (d, .ok _) => clear_block { fs with disk := d } blockId

/-- Success tail of `allocate_block` once the scan has found the `Unused`
block `i`: store the new hints, persist, zero block `blk`, return `blk`. -/
def allocSucceed (fs : FsM) (blk i : Nat) (forInodes : Bool) : FsM × Except FsErrM Nat :=
  let sb' := { fs.sb with
    earliest_free := i
    earliest_inode_space :=
      if forInodes then blk * INODES_PER_BLOCK else fs.sb.earliest_inode_space }
  match write_superblock { fs with sb := sb' } with
  | (fs, .error e) => (fs, .error e)
  | (fs, .ok _) =>
    match clear_block fs blk with
    | (fs, .error e) => (fs, .error e)
    | (fs, .ok _) => (fs, .ok blk)

/-- The `for i in blk+1..total_blocks` scan of `allocate_block`, with the
remaining iteration count as structural fuel (`i` is the current block
id). -/
def allocScan (blk : Nat) (forInodes : Bool) (fs : FsM) : Nat → Nat → FsM × Except FsErrM Nat
  | _, 0 =>
    match write_superblock fs with
    | (fs, .error e) => (fs, .error e)
    | (fs, .ok _) => (fs, .error .NoSpace)
  | i, n + 1 =>
    match BlockArrayDescriptor.get fs.disk (i / BLOCKS_PER_BLOCKARRAY)
        (i % BLOCKS_PER_BLOCKARRAY) with
    | .error e => (fs, .error (.DiskError e))
    | .ok ent =>
      if ent = .Unused then allocSucceed fs blk i forInodes
      else allocScan blk forInodes fs (i + 1) n

/-- `FileSystem::allocate_block`. -/
def allocate_block (fs : FsM) (forInodes : Bool) : FsM × Except FsErrM Nat :=
  let blk := fs.sb.earliest_free
  if blk = 0 then (fs, .error .NoSpace)
  else
    let sb := if blk = fs.sb.last_free then { fs.sb with last_free := 0 } else fs.sb
    let fs1 := { fs with sb := { sb with earliest_free := 0 } }
    match BlockArrayDescriptor.set fs1.disk (blk / BLOCKS_PER_BLOCKARRAY)
        (blk % BLOCKS_PER_BLOCKARRAY)
        (if forInodes then .InodeBlock else .Allocated) with
    | (d, .error e) => ({ fs1 with disk := d }, .error (.DiskError e))
    | (d, .ok _) =>
      allocScan blk forInodes { fs1 with disk := d } (blk + 1)
        (fs.sb.total_blocks - (blk + 1))

/-- `FileSystem::read_inode` (`read_struct::<Inode>(n * 128)`). -/
def read_inode (fs : FsM) (n : Nat) : Except FsErrM InodeM :=
  if n * INODE_SIZE + INODE_SIZE ≤ fs.disk.size then .ok (fs.inodes n)
  else .error (.DiskError .NotEnoughSpace)

/-- `FileSystem::write_inode` (`write_struct(n * 128, inode)`). -/
def write_inode (fs : FsM) (n : Nat) (ino : InodeM) : FsM × Except FsErrM Unit :=
  if n * INODE_SIZE + INODE_SIZE ≤ fs.disk.size then
    ({ fs with inodes := fun k => if k = n then ino else fs.inodes k }, .ok ())
  else (fs, .error (.DiskError .NotEnoughSpace))

/-- The `for i in 0..INODES_PER_BLOCK` slot scan of `get_inode_physical`
(`i` is the loop variable, fuel the remaining iterations). -/
def inodeScan (fs : FsM) (baseAddr : Nat) : Nat → Nat → Except FsErrM (Option Nat)
  | _, 0 => .ok none
  | i, n + 1 =>
    if baseAddr + i * INODE_SIZE + INODE_SIZE ≤ fs.disk.size then
      if (fs.inodes ((baseAddr + i * INODE_SIZE) / INODE_SIZE)).hardlinks = 0 then
        .ok (some (baseAddr + i * INODE_SIZE))
      else inodeScan fs baseAddr (i + 1) n
    else .error (.DiskError .NotEnoughSpace)

/-- `FileSystem::get_inode_physical`. -/
def get_inode_physical (fs : FsM) : FsM × Except FsErrM Nat :=
  let inodeAddr := fs.sb.earliest_inode_space * INODE_SIZE
  match (if inodeAddr ≠ 0 then inodeScan fs inodeAddr 0 INODES_PER_BLOCK else .ok none) with
  | .error e => (fs, .error e)
  | .ok (some a) => (fs, .ok a)
  | .ok none =>
    match allocate_block fs true with
    | (fs, .error e) => (fs, .error e)
    | (fs, .ok block) =>
      match pointer block with
      | .error e => (fs, .error e)
      | .ok p => (fs, .ok p)

/-- `FileSystem::create_inode`. -/
def create_inode (fs : FsM) (ino : InodeM) : FsM × Except FsErrM Nat :=
  match get_inode_physical fs with
  | (fs, .error e) => (fs, .error e)
  | (fs, .ok phys) =>
    let addr := phys / INODE_SIZE
    match write_inode fs addr ino with
    | (fs, .error e) => (fs, .error e)
    | (fs, .ok _) => (fs, .ok addr)

/-- The `for i in 0..num_blocks.div_ceil(BLOCKS_PER_BLOCKARRAY)` descriptor
initialisation loop of `FileSystem::create` (`i` the segment index, fuel the
remaining count). -/
def initDescriptors (d : DiskM) : Nat → Nat → Except FsErrM DiskM
  | 0, _ => .ok d
  | n + 1, i =>
    match BlockArrayDescriptor.set d i 0 .BlockArrayDescriptor with
    | (_, .error e) => .error (.DiskError e)
    | (d, .ok _) =>
      match (if i = 0 then BlockArrayDescriptor.set d 0 1 .Allocated else (d, .ok ())) with
      | (_, .error e) => .error (.DiskError e)
      | (d, .ok _) => initDescriptors d n (i + 1)

/-- The all-zero inode record a zero-filled disk holds in every slot. -/
def zeroInode : InodeM := Inode.create 0 0 0 0 0 0

/-- `FileSystem::create` (`now` stands for `SystemTime::now()`); the root
inode mode is `PermissionsAndType::new(Directory, [group_all, user_all,
OtherRead, OtherExecute])`. -/
def create (numBlocks : Nat) (fsName : List Nat) (now : Nat) : Except FsErrM FsM :=
  let disk : DiskM := ⟨fun _ => 0, numBlocks * BLOCK_SIZE⟩
  if numBlocks < 3 then .error (.DiskError .NotEnoughSpace)
  else
    match Superblock.new fsName numBlocks now with
    | .error e => .error e
    | .ok sb =>
      match initDescriptors disk
          ((numBlocks + BLOCKS_PER_BLOCKARRAY - 1) / BLOCKS_PER_BLOCKARRAY) 0 with
      | .error e => .error e
      | .ok disk =>
        let fs : FsM := { sb := sb, disk := disk, inodes := fun _ => zeroInode, persisted := sb }
        let rootIno := Inode.create (0x4000 ||| 0o70 ||| 0o700 ||| 0o4 ||| 0o1) 0 0 now 1 0
        match create_inode fs rootIno with
        | (_, .error e) => .error e
        | (fs, .ok nbr) =>
          let fs := { fs with sb := { fs.sb with root_inode := nbr } }
          match write_superblock fs with
          | (_, .error e) => .error e
          | (fs, .ok _) => .ok fs

end FileSystem

/-- Outcome of an operation that can also panic (Rust debug-build panics:
out-of-range slice indexing, `u32` underflow); `ok`/`err` carry the state
left behind, a panic aborts. -/
inductive PRes (σ : Type) (α : Type) where
  | ok (s : σ) (a : α)
  | err (s : σ) (e : FsErrM)
  | panic

/-- Whether a `PRes` is a panic. -/
def PRes.isPanic {σ α : Type} : PRes σ α → Bool
  | .panic => true
  | _ => false

/-- The error of a `PRes`, if any. -/
def PRes.errOf {σ α : Type} : PRes σ α → Option FsErrM
  | .err _ e => some e
  | _ => none

/-- Overwrite `buf[pos .. pos + data.length)` with `data` (the effect of a
read into the sub-slice `buf[pos..]`). -/
def listWrite (buf : List Nat) (pos : Nat) (data : List Nat) : List Nat :=
  buf.take pos ++ data ++ buf.drop (pos + data.length)

/-- Rust slice indexing `&buf[start..fin]`: `none` models the panic on an
out-of-range or inverted range. -/
def listSlice (buf : List Nat) (start fin : Nat) : Option (List Nat) :=
  if start ≤ fin ∧ fin ≤ buf.length then some ((buf.drop start).take (fin - start)) else none

/-- `read_struct::<[u32; 1024]>`: 4096 bytes at `p`, little-endian words. -/
def readU32Array (d : DiskM) (p : Nat) : Except DiskErrM (List Nat) :=
  if p + 4096 ≤ d.size then
    .ok ((List.range 1024).map fun i =>
      DiskM.leVal ((List.range 4).map fun k => d.bytes (p + i * 4 + k)))
  else .error .NotEnoughSpace

namespace Inode

/-- `Inode::get_block_id`.  The indirect branches transcribe the source
exactly: the pointer block is byte-indexed at `ptr + index * 4` (without a
`* 4096` block-to-byte conversion), a stored zero in the singly range is
returned as `Some 0`, and the doubly branch dereferences
`singly_indirect_block_pointer` where the doubly pointer was meant. -/
def get_block_id (ino : InodeM) (index : Nat) (d : DiskM) : Option Nat :=
  if index < 10 then
    match ino.block_pointers.getD index 0 with
    | 0 => none
    | other => some other
  else if 10 ≤ index ∧ index < 1034 then
    let index := index - 10
    if 0 < ino.singly_indirect_block_pointer then
      match d.readU32 (ino.singly_indirect_block_pointer + index * 4) with
      | .ok v => some v
      | .error _ => none
    else none
  else if 1034 ≤ index ∧ index < 1024 * 1024 + 10 then
    let index := index - 10
    let indexL1 := index / 1024
    let indexL2 := index % 1024
    if 0 < ino.doubly_indirect_block_pointer then
      match d.readU32 (ino.singly_indirect_block_pointer + indexL1 * 4) with
      | .error _ => none
      | .ok addr =>
        if addr = 0 then none
        else
          match d.readU32 (addr + indexL2 * 4) with
          | .error _ => none
          | .ok addr2 => if addr2 = 0 then none else some addr2
    else none
  else none

/-- `Inode::_read`: resolve the block containing `off` and `read_lossy` up
to `n` bytes from it. -/
def _read (ino : InodeM) (off n : Nat) (fs : FsM) : Except FsErrM (Nat × List Nat) :=
  let blockId := off / 4096
  let blockOffset := off % 4096
  match get_block_id ino blockId fs.disk with
  | none => .error .NoEntry
  | some b => .ok (fs.disk.readLossy (b * 4096 + blockOffset) n)

/-- The loop of `Inode::read` (fuel-recursive; `acc` is `read_already`,
`left` is `left_to_read`; the fuel `buf.length + 1` can never run out since
`left` shrinks by at least 1 per iteration). -/
def readLoop (ino : InodeM) (fs : FsM) :
    Nat → Nat → List Nat → Nat → Nat → Except FsErrM (Nat × List Nat)
  | 0, _, buf, acc, _ => .ok (acc, buf)
  | fuel + 1, off, buf, acc, left =>
    let length := min (4096 - off % 4096) left
    if length = 0 then .ok (acc, buf)
    else
      match _read ino off length fs with
      | .error e => .error e
      | .ok (cnt, data) =>
        if cnt = 0 then .ok (acc, buf)
        else readLoop ino fs fuel (off + length) (listWrite buf acc data) (acc + length)
          (left - length)

/-- `Inode::read`: best-effort read into `buf`, returning the final
`read_already` count and the buffer contents. -/
def read (ino : InodeM) (off : Nat) (buf : List Nat) (fs : FsM) :
    Except FsErrM (Nat × List Nat) :=
  readLoop ino fs (buf.length + 1) off buf 0 buf.length

/-- `Inode::read_exact`: fails with `FsError::NoSpace` on a short count. -/
def read_exact (ino : InodeM) (off : Nat) (buf : List Nat) (fs : FsM) :
    Except FsErrM (List Nat) :=
  match read ino off buf fs with
  | .error e => .error e
  | .ok (n, buf2) => if n = buf.length then .ok buf2 else .error .NoSpace

/-- `Inode::read_struct::<u32>`. -/
def read_struct_u32 (ino : InodeM) (addr : Nat) (fs : FsM) : Except FsErrM Nat :=
  match read ino addr [0, 0, 0, 0] fs with
  | .error e => .error e
  | .ok (n, buf2) =>
    if n = 4 then .ok (DiskM.leVal buf2) else .error (.DiskError .NotEnoughSpace)

/-- The hole-finding loop at the head of `Inode::get_next_free_block`
(first logical index whose `get_block_id` is `None`); the fuel
`1024 * 1024 + 11` suffices since `get_block_id` is `None` from index
`1024 * 1024 + 10` on. -/
def findHole (ino : InodeM) (d : DiskM) : Nat → Nat → Nat
  | 0, cur => cur
  | fuel + 1, cur =>
    if (get_block_id ino cur d).isNone then cur
    else findHole ino d fuel (cur + 1)

/-- `Inode::get_next_free_block`.  The singly/doubly pointer-block writes
use the source's byte addressing `ptr + slot * 4`. -/
def get_next_free_block (fs : FsM) (ino : InodeM) (myInodeAddr : Nat) :
    (FsM × InodeM) × Except FsErrM Nat :=
  let blkId := findHole ino fs.disk (1024 * 1024 + 11) 0
  if blkId < 10 then
    match FileSystem.allocate_block fs false with
    | (fs, .error e) => ((fs, ino), .error e)
    | (fs, .ok blk) =>
      let ino := { ino with block_pointers := ino.block_pointers.set blkId blk }
      match FileSystem.write_inode fs myInodeAddr ino with
      | (fs, .error e) => ((fs, ino), .error e)
      | (fs, .ok _) => ((fs, ino), .ok blkId)
  else if blkId < 1024 + 10 then
    match (if ino.singly_indirect_block_pointer = 0 then
        match FileSystem.allocate_block fs false with
        | (fs, .error e) => ((fs, ino), .error e)
        | (fs, .ok blk) =>
          let ino := { ino with singly_indirect_block_pointer := blk }
          match FileSystem.write_inode fs myInodeAddr ino with
          | (fs, .error e) => ((fs, ino), .error e)
          | (fs, .ok _) => ((fs, ino), .ok ())
      else ((fs, ino), .ok ()) : (FsM × InodeM) × Except FsErrM Unit) with
    | ((fs, ino), .error e) => ((fs, ino), .error e)
    | ((fs, ino), .ok _) =>
      match FileSystem.allocate_block fs false with
      | (fs, .error e) => ((fs, ino), .error e)
      | (fs, .ok blk) =>
        match DiskM.writeU32 fs.disk
            (ino.singly_indirect_block_pointer + (blkId - 10) * 4) blk with
        | (d, .error e) => (({ fs with disk := d }, ino), .error (.DiskError e))
        | (d, .ok _) => (({ fs with disk := d }, ino), .ok blkId)
  else if blkId < 1024 * 1024 + 10 then
    match (if ino.doubly_indirect_block_pointer = 0 then
        match FileSystem.allocate_block fs false with
        | (fs, .error e) => ((fs, ino), .error e)
        | (fs, .ok blk) =>
          let ino := { ino with doubly_indirect_block_pointer := blk }
          match FileSystem.write_inode fs myInodeAddr ino with
          | (fs, .error e) => ((fs, ino), .error e)
          | (fs, .ok _) => ((fs, ino), .ok ())
      else ((fs, ino), .ok ()) : (FsM × InodeM) × Except FsErrM Unit) with
    | ((fs, ino), .error e) => ((fs, ino), .error e)
    | ((fs, ino), .ok _) =>
      match FileSystem.allocate_block fs false with
      | (fs, .error e) => ((fs, ino), .error e)
      | (fs, .ok singlyBlkPtr) =>
        match DiskM.writeU32 fs.disk
            (ino.doubly_indirect_block_pointer + (blkId - 10) / 1024 * 4) singlyBlkPtr with
        | (d, .error e) => (({ fs with disk := d }, ino), .error (.DiskError e))
        | (d, .ok _) =>
          let fs := { fs with disk := d }
          match FileSystem.allocate_block fs false with
          | (fs, .error e) => ((fs, ino), .error e)
          | (fs, .ok blk) =>
            match DiskM.writeU32 fs.disk (singlyBlkPtr + (blkId - 10) % 1024 * 4) blk with
            | (d, .error e) => (({ fs with disk := d }, ino), .error (.DiskError e))
            | (d, .ok _) => (({ fs with disk := d }, ino), .ok blkId)
  else ((fs, ino), .error (.DiskError .NotEnoughSpace))

/-- The entry-freeing loop of `Inode::unallocate_block` with
`is_double = false`: free every non-zero word. -/
def unallocFreeLoop (fs : FsM) : List Nat → FsM × Except FsErrM Unit
  | [] => (fs, .ok ())
  | ent :: rest =>
    if ent = 0 then unallocFreeLoop fs rest
    else
      match FileSystem.free_block fs ent with
      | (fs, .error e) => (fs, .error e)
      | (fs, .ok _) => unallocFreeLoop fs rest

/-- `Inode::unallocate_block(false, block_id)`: load the pointer block and
free its non-zero entries. -/
def unallocSingle (fs : FsM) (blockId : Nat) : FsM × Except FsErrM Unit :=
  match FileSystem.pointer blockId with
  | .error e => (fs, .error e)
  | .ok p =>
    match readU32Array fs.disk p with
    | .error e => (fs, .error (.DiskError e))
    | .ok ents => unallocFreeLoop fs ents

/-- The entry loop of `Inode::unallocate_block` with `is_double = true`:
recurse one level then free the entry itself. -/
def unallocDoubleLoop (fs : FsM) : List Nat → FsM × Except FsErrM Unit
  | [] => (fs, .ok ())
  | ent :: rest =>
    if ent = 0 then unallocDoubleLoop fs rest
    else
      match unallocSingle fs ent with
      | (fs, .error e) => (fs, .error e)
      | (fs, .ok _) =>
        match FileSystem.free_block fs ent with
        | (fs, .error e) => (fs, .error e)
        | (fs, .ok _) => unallocDoubleLoop fs rest

/-- `Inode::unallocate_block`. -/
def unallocate_block (isDouble : Bool) (fs : FsM) (blockId : Nat) :
    FsM × Except FsErrM Unit :=
  match FileSystem.pointer blockId with
  | .error e => (fs, .error e)
  | .ok p =>
    match readU32Array fs.disk p with
    | .error e => (fs, .error (.DiskError e))
    | .ok ents => if isDouble then unallocDoubleLoop fs ents else unallocFreeLoop fs ents

/-- The `for i in cur_block..10` truncation loop of `resize_self`. -/
def freeDirectLoop : Nat → Nat → FsM → InodeM → (FsM × InodeM) × Except FsErrM Unit
  | 0, _, fs, ino => ((fs, ino), .ok ())
  | n + 1, i, fs, ino =>
    if ino.block_pointers.getD i 0 ≠ 0 then
      match FileSystem.free_block fs (ino.block_pointers.getD i 0) with
      | (fs, .error e) => ((fs, ino), .error e)
      | (fs, .ok _) =>
        freeDirectLoop n (i + 1) fs { ino with block_pointers := ino.block_pointers.set i 0 }
    else freeDirectLoop n (i + 1) fs ino

/-- The main loop of `resize_self`: exactly `to` iterations, allocating the
first hole whenever the current logical block is unmapped. -/
def resizeLoop (myInodeAddr : Nat) :
    Nat → Nat → FsM → InodeM → (FsM × InodeM) × Except FsErrM Unit
  | 0, _, fs, ino => ((fs, ino), .ok ())
  | n + 1, cur, fs, ino =>
    match (if (get_block_id ino cur fs.disk).isNone then
        get_next_free_block fs ino myInodeAddr
      else ((fs, ino), .ok 0) : (FsM × InodeM) × Except FsErrM Nat) with
    | ((fs, ino), .error e) => ((fs, ino), .error e)
    | ((fs, ino), .ok _) => resizeLoop myInodeAddr n (cur + 1) fs ino

/-- `Inode::resize_self`.  With `to = 0` the loop body runs once and then
`blocks_required -= 1` underflows the `u32`: a debug-build panic. -/
def resize_self (ino : InodeM) (tgt : Nat) (fs : FsM) (myInodeAddr : Nat) :
    PRes (FsM × InodeM) Unit :=
  match tgt with
  | 0 =>
    match (if (get_block_id ino 0 fs.disk).isNone then
        get_next_free_block fs ino myInodeAddr
      else ((fs, ino), .ok 0) : (FsM × InodeM) × Except FsErrM Nat) with
    | ((fs, ino), .error e) => .err (fs, ino) e
    | ((_, _), .ok _) => .panic
  | n + 1 =>
    match resizeLoop myInodeAddr (n + 1) 0 fs ino with
    | ((fs, ino), .error e) => .err (fs, ino) e
    | ((fs, ino), .ok _) =>
      match (if n + 1 < 10 then freeDirectLoop (10 - (n + 1)) (n + 1) fs ino
             else ((fs, ino), .ok ()) : (FsM × InodeM) × Except FsErrM Unit) with
      | ((fs, ino), .error e) => .err (fs, ino) e
      | ((fs, ino), .ok _) =>
        match (if ino.singly_indirect_block_pointer ≠ 0 ∧ 10 ≤ n + 1 then
            unallocate_block false fs ino.singly_indirect_block_pointer
          else (fs, .ok ()) : FsM × Except FsErrM Unit) with
        | (fs, .error e) => .err (fs, ino) e
        | (fs, .ok _) =>
          match (if ino.doubly_indirect_block_pointer ≠ 0 ∧ 1024 + 10 ≤ n + 1 then
              unallocate_block true fs ino.doubly_indirect_block_pointer
            else (fs, .ok ()) : FsM × Except FsErrM Unit) with
          | (fs, .error e) => .err (fs, ino) e
          | (fs, .ok _) =>
            match FileSystem.write_inode fs myInodeAddr ino with
            | (fs, .error e) => .err (fs, ino) e
            | (fs, .ok _) => .ok (fs, ino) ()

/-- The `for i in 0..blocks` data-writing loop of `file_write`, including
the source's slice bound `start + (i * BLOCK_SIZE + 4096).min(buf.len())`
(whose out-of-range indexing for multi-block buffers panics). -/
def writeBlocksLoop (buf : List Nat) :
    Nat → Nat → FsM → InodeM → PRes (FsM × InodeM) Unit
  | 0, _, fs, ino => .ok (fs, ino) ()
  | n + 1, i, fs, ino =>
    match get_block_id ino i fs.disk with
    | none => .err (fs, ino) .NoEntry
    | some block =>
      match FileSystem.pointer block with
      | .error e => .err (fs, ino) e
      | .ok off =>
        let start := i * BLOCK_SIZE
        let fin := start + min (i * BLOCK_SIZE + 4096) buf.length
        match listSlice buf start fin with
        | none => .panic
        | some sub =>
          match DiskM.writeExact fs.disk off sub with
          | (d, .error e) => .err ({ fs with disk := d }, ino) (.DiskError e)
          | (d, .ok _) => writeBlocksLoop buf n (i + 1) { fs with disk := d } ino

/-- `Inode::file_write`. -/
def file_write (ino : InodeM) (buf : List Nat) (fs : FsM) (myInodeAddr : Nat) :
    PRes (FsM × InodeM) Unit :=
  if ino.getType ≠ 0x8000 then .err (fs, ino) .NoSpace
  else
    let blocks := (buf.length + BLOCK_SIZE - 1) / BLOCK_SIZE
    match resize_self ino blocks fs myInodeAddr with
    | .panic => .panic
    | .err s e => .err s e
    | .ok (fs, ino) _ =>
      match writeBlocksLoop buf blocks 0 fs ino with
      | .panic => .panic
      | .err s e => .err s e
      | .ok (fs, ino) _ =>
        let ino := { ino with meta := buf.length % BLOCK_SIZE }
        match FileSystem.write_inode fs myInodeAddr ino with
        | (fs, .error e) => .err (fs, ino) e
        | (fs, .ok _) => .ok (fs, ino) ()

end Inode

/-- The `DirEntry` record (`name` holds the `name_size` meaningful bytes). -/
structure DirEntryM where
  name_size : Nat
  inode : Nat
  name : List Nat
deriving DecidableEq, Repr

namespace DirEntryM

/-- `DirEntry::create`. -/
def create (inode : Nat) (name : List Nat) : Except FsErrM DirEntryM :=
  if 255 ≤ name.length ∨ name.length = 0 then .error .NameTooLong
  else .ok { name_size := name.length, inode := inode, name := name }

/-- `DirEntry::is_empty`. -/
def isEmpty (e : DirEntryM) : Prop := e.inode = 0 ∨ e.name_size = 0

instance (e : DirEntryM) : Decidable e.isEmpty := by
  unfold isEmpty
  infer_instance

/-- `DirEntry::get_size`. -/
def getSize (e : DirEntryM) : Nat := 5 + e.name_size

/-- `DirEntry::write_to_disk`: the packed on-disk form
`[name_size][inode u32 LE][name bytes]`. -/
def write_to_disk (e : DirEntryM) (d : DiskM) (addr : Nat) : DiskM × Except FsErrM Unit :=
  match DiskM.writeExact d addr [e.name_size] with
  | (d, .error er) => (d, .error (.DiskError er))
  | (d, .ok _) =>
    match DiskM.writeU32 d (addr + 1) e.inode with
    | (d, .error er) => (d, .error (.DiskError er))
    | (d, .ok _) =>
      match DiskM.writeExact d (addr + 5) (e.name.take e.name_size) with
      | (d, .error er) => (d, .error (.DiskError er))
      | (d, .ok _) => (d, .ok ())

/-- `read_struct::<DirEntry>` straight off the disk, as the directory slot
scans do: a memory copy of the `repr(C)` struct, whose layout is
`name_size` at offset 0, 3 padding bytes, `inode` at offset 4, `name` at
offsets 8..263, total size 264 — NOT the packed on-disk form that
`write_to_disk` produces. -/
def rawRead (d : DiskM) (addr : Nat) : Except FsErrM DirEntryM :=
  if addr + 264 ≤ d.size then
    .ok { name_size := d.bytes addr
          inode := DiskM.leVal
            [d.bytes (addr + 4), d.bytes (addr + 5), d.bytes (addr + 6), d.bytes (addr + 7)]
          name := (List.range 255).map fun k => d.bytes (addr + 8 + k) }
  else .error (.DiskError .NotEnoughSpace)

/-- `DirEntry::read_from_disk`: the packed reader used by the directory
iterator, going through the inode's block mapping. -/
def read_from_disk (ino : InodeM) (fs : FsM) (addr : Nat) : Except FsErrM DirEntryM :=
  match Inode.read_exact ino addr [0] fs with
  | .error e => .error e
  | .ok value =>
    let nameSize := value.getD 0 0
    match Inode.read_struct_u32 ino (addr + 1) fs with
    | .error e => .error e
    | .ok inodeNbr =>
      if nameSize ≠ 0 then
        match Inode.read_exact ino (addr + 5) (List.replicate nameSize 0) fs with
        | .error e => .error e
        | .ok nameBytes => .ok ⟨nameSize, inodeNbr, nameBytes⟩
      else .ok ⟨nameSize, inodeNbr, []⟩

end DirEntryM

namespace Inode

/-- `Inode::get_next_free_dir_entry_slot` (fuel-recursive; allocates a new
data block and retries when the current block is unmapped). -/
def dirSlotScan : Nat → FsM → InodeM → Nat → Nat → Nat → Nat →
    (FsM × InodeM) × Except FsErrM (Nat × Nat × Nat)
  | 0, fs, ino, _, _, _, _ => ((fs, ino), .error .NoEntry)
  | fuel + 1, fs, ino, myInodeAddr, blkId, off, slotId =>
    match get_block_id ino blkId fs.disk with
    | none =>
      match get_next_free_block fs ino myInodeAddr with
      | ((fs, ino), .error e) => ((fs, ino), .error e)
      | ((fs, ino), .ok newBlkId) => dirSlotScan fuel fs ino myInodeAddr newBlkId off slotId
    | some v =>
      match DirEntryM.rawRead fs.disk (v * BLOCK_SIZE + off) with
      | .error e => ((fs, ino), .error e)
      | .ok de =>
        if de.inode = 0 ∨ de.isEmpty then ((fs, ino), .ok (blkId, off, slotId))
        else
          if 3796 ≤ off + de.getSize then
            dirSlotScan fuel fs ino myInodeAddr (blkId + 1) 0 (slotId + 1)
          else dirSlotScan fuel fs ino myInodeAddr blkId (off + de.getSize) (slotId + 1)

/-- `Inode::get_dir_entry_by_nbr` (fuel-recursive slot lookup). -/
def get_dir_entry_by_nbr : Nat → FsM → InodeM → Nat → Nat → Nat → Nat →
    (FsM × InodeM) × Except FsErrM (Nat × Nat × Nat)
  | 0, fs, ino, _, _, _, _ => ((fs, ino), .error .NoEntry)
  | fuel + 1, fs, ino, target, blkId, off, slotId =>
    match get_block_id ino blkId fs.disk with
    | none => ((fs, ino), .error .NoEntry)
    | some v =>
      match DirEntryM.rawRead fs.disk (v * BLOCK_SIZE + off) with
      | .error e => ((fs, ino), .error e)
      | .ok de =>
        if slotId = target then ((fs, ino), .ok (blkId, off, slotId))
        else
          if 3796 ≤ off + de.getSize then
            get_dir_entry_by_nbr fuel fs ino target (blkId + 1) 0 (slotId + 1)
          else get_dir_entry_by_nbr fuel fs ino target blkId (off + de.getSize) (slotId + 1)

/-- `Inode::write_dir_entry` (fuel 20000 covers any directory the
scenarios build; the scans stop as soon as a slot is found). -/
def write_dir_entry (fs : FsM) (ino : InodeM) (dirEntry : DirEntryM)
    (entryNbr : Option Nat) (myInodeAddr : Nat) :
    (FsM × InodeM) × Except FsErrM Nat :=
  if ino.getType ≠ 0x4000 then ((fs, ino), .error .NoEntry)
  else
    match (match entryNbr with
      | some v => get_dir_entry_by_nbr 20000 fs ino v 0 0 0
      | none => dirSlotScan 20000 fs ino myInodeAddr 0 0 0) with
    | ((fs, ino), .error e) => ((fs, ino), .error e)
    | ((fs, ino), .ok (blkId, off, entryNbr)) =>
      match get_block_id ino blkId fs.disk with
      | none => ((fs, ino), .error .NoEntry)
      | some addr =>
        match dirEntry.write_to_disk fs.disk (addr * BLOCK_SIZE + off) with
        | (d, .error e) => (({ fs with disk := d }, ino), .error e)
        | (d, .ok _) => (({ fs with disk := d }, ino), .ok entryNbr)

end Inode

namespace DirectoryIterator

/-- `DirectoryIterator::next` (fuel-recursive through the tombstone-skip
recursion).  Note the source advances the cursor a second time for every
non-empty entry it yields. -/
def next (ino : InodeM) (fs : FsM) :
    Nat → Nat × Nat → Option (DirEntryM × (Nat × Nat))
  | 0, _ => none
  | fuel + 1, (nextBlk, nextOff) =>
    match DirEntryM.read_from_disk ino fs (nextBlk * BLOCK_SIZE + nextOff) with
    | .error _ => none
    | .ok de =>
      let off1 := nextOff + de.getSize
      let st1 : Nat × Nat :=
        if BLOCK_SIZE ≤ off1 + 264 then (nextBlk + 1, 0) else (nextBlk, off1)
      if de.isEmpty then next ino fs fuel st1
      else
        let off2 := st1.2 + de.getSize
        let st2 : Nat × Nat :=
          if BLOCK_SIZE ≤ off2 + 264 then (st1.1 + 1, 0) else (st1.1, off2)
        some (de, st2)

/-- Drain the iterator into a list (outer fuel bounds the entry count). -/
def collect (ino : InodeM) (fs : FsM) : Nat → Nat × Nat → List DirEntryM
  | 0, _ => []
  | fuel + 1, st =>
    match next ino fs 1000 st with
    | none => []
    | some (de, st2) => de :: collect ino fs fuel st2

end DirectoryIterator

/-- Placeholder superblock (never reached by the scenarios below). -/
def sbJunk : SuperblockM :=
  { signature := [], earliest_free := 0, earliest_inode_space := 0, last_free := 0
    total_unused := 0, total_blocks := 0, last_mount := 0, last_write := 0
    name := [], file_prealloc := 0, dir_prealloc := 0, root_inode := 0 }

/-- Placeholder filesystem (never reached by the scenarios below). -/
def fsJunk : FsM :=
  { sb := sbJunk, disk := dW, inodes := fun _ => FileSystem.zeroInode, persisted := sbJunk }

/-- The single-byte volume name used by all concrete scenarios. -/
def nmW : List Nat := [77]

/-- The filesystem produced by `FileSystem::create(300, name)` at time 0. -/
def fs300 : FsM :=
  match FileSystem.create 300 nmW 0 with
  | .ok fs => fs
  | .error _ => fsJunk

/-- The filesystem produced by `FileSystem::create(4, name)` at time 0: its
only free block is 3 and nothing is free after it. -/
def fs4 : FsM :=
  match FileSystem.create 4 nmW 0 with
  | .ok fs => fs
  | .error _ => fsJunk

/-- `allocate_block(false)` run on the full filesystem `fs4`. -/
def alloc4 : FsM × Except FsErrM Nat := FileSystem.allocate_block fs4 false

/-- The root inode of `fs300` (a directory, initially with no data blocks). -/
def rootIno300 : InodeM :=
  match FileSystem.read_inode fs300 64 with
  | .ok ino => ino
  | .error _ => FileSystem.zeroInode

/-- A freshly created regular-file inode (mode `0x8000`, no data blocks);
the write scenarios store it as inode 65 of `fs300`. -/
def fileInoW : InodeM := Inode.create 0x8000 0 0 0 1 0

/-- The `resize_self(2)` step that `file_write` performs for a 4097-byte
buffer on `fileInoW`. -/
def c1resized : PRes (FsM × InodeM) Unit := Inode.resize_self fileInoW 2 fs300 65

/-- The filesystem state after `c1resized` (blocks 3 and 4 allocated). -/
def fs301 : FsM :=
  match c1resized with
  | .ok (fs, _) _ => fs
  | _ => fsJunk

/-- The inode after `c1resized` (`block_pointers[0] = 3`,
`block_pointers[1] = 4`). -/
def fileIno1 : InodeM :=
  match c1resized with
  | .ok (_, ino) _ => ino
  | _ => FileSystem.zeroInode

/-- The directory entry `("a" ↦ inode 65)`. -/
def entA : DirEntryM :=
  match DirEntryM.create 65 [97] with
  | .ok e => e
  | .error _ => ⟨0, 0, []⟩

/-- The directory entry `("b" ↦ inode 66)`. -/
def entB : DirEntryM :=
  match DirEntryM.create 66 [98] with
  | .ok e => e
  | .error _ => ⟨0, 0, []⟩

/-- Insert `entA` into the root directory of `fs300`. -/
def c2step1 : (FsM × InodeM) × Except FsErrM Nat :=
  Inode.write_dir_entry fs300 rootIno300 entA none 64

/-- State after the first insertion. -/
def fsA : FsM := c2step1.1.1

/-- Root inode after the first insertion. -/
def inoA : InodeM := c2step1.1.2

/-- Insert `entB` into the root directory after `entA`. -/
def c2step2 : (FsM × InodeM) × Except FsErrM Nat :=
  Inode.write_dir_entry fsA inoA entB none 64

/-- State after both insertions. -/
def fsB : FsM := c2step2.1.1

/-- The root inode re-read from the final state, as `DirectoryIterator::new`
does. -/
def c2rootIter : InodeM :=
  match FileSystem.read_inode fsB 64 with
  | .ok i => i
  | .error _ => FileSystem.zeroInode

/-- The names yielded by iterating the root directory of `fsB`. -/
def c2names : List (List Nat) :=
  (DirectoryIterator.collect c2rootIter fsB 10 (0, 0)).map DirEntryM.name

/-- A file inode whose first data block is block 2 (used by the read
witness). -/
def inoR : InodeM :=
  { Inode.create 0x8000 0 0 0 1 0 with block_pointers := (List.replicate 10 0).set 0 2 }

/-- Number of blocks (out of the first `total`) whose usage bit is set in
their segment bitmap, addressed as `BlockArrayDescriptor::get` does. -/
def usedCount (d : DiskM) (total : Nat) : Nat :=
  ((List.range total).filter fun b =>
    (d.bytes (b % BLOCKS_PER_BLOCKARRAY / 8 + b / BLOCKS_PER_BLOCKARRAY * BLOCKS_PER_BLOCKARRAY)).testBit
      (b % BLOCKS_PER_BLOCKARRAY % 8)).length

/-- The device is large enough to hold all `total_blocks` blocks. -/
def DeviceHolds (fs : FsM) : Prop :=
  fs.sb.total_blocks * BLOCK_SIZE ≤ fs.disk.size

section BitLemmas

theorem byte255_testBit {j : Nat} (hj : j < 8) : (255 : Nat).testBit j = true := by
  interval_cases j <;> decide

theorem bit_or_self (x k : Nat) (hk : k < 8) :
    ((x ||| (1 <<< k)) % 256).testBit k = true := by
  have h256 : (256 : Nat) = 2 ^ 8 := by norm_num
  rw [h256, Nat.testBit_mod_two_pow, Nat.one_shiftLeft, Nat.testBit_lor,
    Nat.testBit_two_pow_self]
  simp [hk]

theorem bit_clear_self (x k : Nat) (hk : k < 8) :
    ((x &&& (255 ^^^ (1 <<< k))) % 256).testBit k = false := by
  have h256 : (256 : Nat) = 2 ^ 8 := by norm_num
  rw [h256, Nat.testBit_mod_two_pow, Nat.one_shiftLeft, Nat.testBit_land,
    Nat.testBit_xor, byte255_testBit hk, Nat.testBit_two_pow_self]
  simp

theorem bit_or_other (x k j : Nat) (hj : j < 8) (hne : j ≠ k) :
    ((x ||| (1 <<< k)) % 256).testBit j = x.testBit j := by
  have h256 : (256 : Nat) = 2 ^ 8 := by norm_num
  rw [h256, Nat.testBit_mod_two_pow, Nat.one_shiftLeft, Nat.testBit_lor,
    Nat.testBit_two_pow_of_ne (Ne.symm hne)]
  simp [hj]

theorem bit_clear_other (x k j : Nat) (hj : j < 8) (hne : j ≠ k) :
    ((x &&& (255 ^^^ (1 <<< k))) % 256).testBit j = x.testBit j := by
  have h256 : (256 : Nat) = 2 ^ 8 := by norm_num
  rw [h256, Nat.testBit_mod_two_pow, Nat.one_shiftLeft, Nat.testBit_land,
    Nat.testBit_xor, byte255_testBit hj, Nat.testBit_two_pow_of_ne (Ne.symm hne)]
  simp [hj]

end BitLemmas

namespace BlockArrayDescriptor

/-- Anatomy of a successful `set` at a valid non-zero index: both bitmap
bytes are on the device, the size is unchanged, and exactly the two bitmap
bytes are rewritten (usage bit per `kind ≠ Unused`, kind bit per
`kind = InodeBlock`). -/
theorem set_ok_spec (d : DiskM) (s i : Nat) (t : BlockArrayEntry)
    (h2 : i < BLOCKS_PER_BLOCKARRAY)
    (hok : (set d s i t).2 = .ok ()) :
    (i / 8 + s * BLOCKS_PER_BLOCKARRAY) + 2048 < d.size ∧
    (set d s i t).1.size = d.size ∧
    ∀ x, (set d s i t).1.bytes x =
      (if x = (i / 8 + s * BLOCKS_PER_BLOCKARRAY) + 2048 then
        (if (if i = 0 then .BlockArrayDescriptor
             else if t = .BlockArrayDescriptor then .Allocated else t) = .InodeBlock then
           d.bytes ((i / 8 + s * BLOCKS_PER_BLOCKARRAY) + 2048) ||| (1 <<< (i % 8))
         else d.bytes ((i / 8 + s * BLOCKS_PER_BLOCKARRAY) + 2048) &&& (255 ^^^ (1 <<< (i % 8)))) % 256
       else if x = i / 8 + s * BLOCKS_PER_BLOCKARRAY then
        (if (if i = 0 then .BlockArrayDescriptor
             else if t = .BlockArrayDescriptor then .Allocated else t) ≠ .Unused then
           d.bytes (i / 8 + s * BLOCKS_PER_BLOCKARRAY) ||| (1 <<< (i % 8))
         else d.bytes (i / 8 + s * BLOCKS_PER_BLOCKARRAY) &&& (255 ^^^ (1 <<< (i % 8)))) % 256
       else d.bytes x) := by
  have hle : ¬ (BLOCKS_PER_BLOCKARRAY ≤ i) := by omega
  by_cases ha : i / 8 + s * BLOCKS_PER_BLOCKARRAY < d.size
  · by_cases hb : i / 8 + s * BLOCKS_PER_BLOCKARRAY + 2048 < d.size
    · refine ⟨hb, ?_, ?_⟩ <;>
      · simp only [set, DiskM.readU8, DiskM.writeU8, if_neg hle, if_pos ha, if_pos hb]
        try by_cases hz : i = 0 <;> cases t <;> simp [hz]
    · exfalso
      simp only [set, DiskM.readU8, DiskM.writeU8, if_neg hle,
        if_pos ha, if_neg hb] at hok
      by_cases hz : i = 0 <;> cases t <;> simp_all
  · exfalso
    simp only [set, DiskM.readU8, if_neg hle, if_neg ha] at hok
    by_cases hz : i = 0 <;> cases t <;> simp_all

/-- After a successful `set` of a non-descriptor kind at a valid non-zero
index, `get` reads back exactly that kind. -/
theorem get_after_set_ok (d : DiskM) (s i : Nat) (t : BlockArrayEntry)
    (h1 : 0 < i) (h2 : i < BLOCKS_PER_BLOCKARRAY) (ht : t ≠ .BlockArrayDescriptor)
    (hok : (set d s i t).2 = .ok ()) :
    get (set d s i t).1 s i = .ok t := by
  obtain ⟨hb, hsz, hbytes⟩ := set_ok_spec d s i t h2 hok
  simp only [show ¬ (i = 0) by omega, ite_false, if_neg] at hbytes
  have hk8 : i % 8 < 8 := Nat.mod_lt _ (by norm_num)
  have hane : i / 8 + s * BLOCKS_PER_BLOCKARRAY ≠
      i / 8 + s * BLOCKS_PER_BLOCKARRAY + 2048 := by omega
  have ha : i / 8 + s * BLOCKS_PER_BLOCKARRAY < d.size := by omega
  have hi0 : ¬ (i = 0) := by omega
  rw [get]
  rw [if_neg hi0]
  simp only [DiskM.readU8, hsz, if_pos ha, if_pos hb,
    hbytes (i / 8 + s * BLOCKS_PER_BLOCKARRAY),
    hbytes (i / 8 + s * BLOCKS_PER_BLOCKARRAY + 2048),
    if_pos rfl, if_neg hane]
  cases t with
  | BlockArrayDescriptor => exact absurd rfl ht
  | Unused => simp [bit_clear_self _ _ hk8]
  | InodeBlock => simp [bit_or_self _ _ hk8]
  | Allocated => simp [bit_or_self _ _ hk8, bit_clear_self _ _ hk8]

/-- A successful `set` leaves the device size and address validity
unchanged, so a second `set` at the same spot also succeeds. -/
theorem set_ok_again (d : DiskM) (s i : Nat) (t t' : BlockArrayEntry)
    (h1 : 0 < i) (h2 : i < BLOCKS_PER_BLOCKARRAY)
    (hok : (set d s i t).2 = .ok ()) :
    (set (set d s i t).1 s i t').2 = .ok () := by
  obtain ⟨hb, hsz, _⟩ := set_ok_spec d s i t h2 hok
  have hle : ¬ (BLOCKS_PER_BLOCKARRAY ≤ i) := by omega
  have hi0 : ¬ (i = 0) := by omega
  have ha : i / 8 + s * BLOCKS_PER_BLOCKARRAY < d.size := by omega
  simp only [set, DiskM.readU8, DiskM.writeU8, hsz, if_neg hle, if_neg hi0,
    if_pos ha, if_pos hb]

/-- `get` only looks at one bit of the usage byte and one bit of the kind
byte: disks agreeing on those bits (and in size) agree on `get`. -/
theorem get_congrBits (d1 d2 : DiskM) (s i : Nat) (hi : i ≠ 0)
    (hs : d1.size = d2.size)
    (hu : (d1.bytes (i / 8 + s * BLOCKS_PER_BLOCKARRAY)).testBit (i % 8)
        = (d2.bytes (i / 8 + s * BLOCKS_PER_BLOCKARRAY)).testBit (i % 8))
    (hk : (d1.bytes (i / 8 + s * BLOCKS_PER_BLOCKARRAY + 2048)).testBit (i % 8)
        = (d2.bytes (i / 8 + s * BLOCKS_PER_BLOCKARRAY + 2048)).testBit (i % 8)) :
    get d1 s i = get d2 s i := by
  unfold get
  rw [if_neg hi, if_neg hi]
  simp only [DiskM.readU8, hs]
  by_cases hr1 : i / 8 + s * BLOCKS_PER_BLOCKARRAY < d2.size
  · rw [if_pos hr1, if_pos hr1]
    dsimp only
    rw [hu]
    cases hX : (d2.bytes (i / 8 + s * BLOCKS_PER_BLOCKARRAY)).testBit (i % 8)
    · simp
    · simp only [hX, Bool.true_eq_false, if_false]
      by_cases hr2 : i / 8 + s * BLOCKS_PER_BLOCKARRAY + 2048 < d2.size
      · rw [if_pos hr2, if_pos hr2]
        dsimp only
        rw [hk]
      · rw [if_neg hr2, if_neg hr2]
  · rw [if_neg hr1, if_neg hr1]

set_option maxHeartbeats 1000000 in
/-- A successful `set` at `(s, i)` does not change `get` at any other
position (the two writes touch only bit `i % 8` of the two bitmap bytes of
`(s, i)`). -/
theorem get_after_set_other (d : DiskM) (s i : Nat) (t : BlockArrayEntry)
    (h2 : i < BLOCKS_PER_BLOCKARRAY)
    (hok : (set d s i t).2 = .ok ())
    (s' i' : Nat) (h2' : i' < BLOCKS_PER_BLOCKARRAY)
    (hne : ¬ (s' = s ∧ i' = i)) :
    get (set d s i t).1 s' i' = get d s' i' := by
  obtain ⟨hb, hsz, hbytes⟩ := set_ok_spec d s i t h2 hok
  by_cases hz : i' = 0
  · rw [hz]
    rfl
  · have hBPB : BLOCKS_PER_BLOCKARRAY = 16384 := rfl
    rw [hBPB] at h2 h2'
    simp only [hBPB] at hbytes
    have hq : i / 8 < 2048 := by omega
    have hq' : i' / 8 < 2048 := by omega
    apply get_congrBits _ _ _ _ hz hsz
    · simp only [hBPB]
      rw [hbytes]
      have hne1 : i' / 8 + s' * 16384 ≠ i / 8 + s * 16384 + 2048 := by omega
      rw [if_neg hne1]
      by_cases hcoll : i' / 8 + s' * 16384 = i / 8 + s * 16384
      · have hss : s' = s := by omega
        have hdd : i' / 8 = i / 8 := by omega
        have hii : i' ≠ i := fun hcon => hne ⟨hss, hcon⟩
        have hk8 : i' % 8 ≠ i % 8 := by omega
        rw [if_pos hcoll, hcoll]
        by_cases hc : (if i = 0 then BlockArrayEntry.BlockArrayDescriptor
            else if t = BlockArrayEntry.BlockArrayDescriptor then BlockArrayEntry.Allocated
            else t) ≠ BlockArrayEntry.Unused
        · rw [if_pos hc]
          exact bit_or_other _ _ _ (by omega) hk8
        · rw [if_neg hc]
          exact bit_clear_other _ _ _ (by omega) hk8
      · rw [if_neg hcoll]
    · simp only [hBPB]
      rw [hbytes]
      by_cases hcoll : i' / 8 + s' * 16384 = i / 8 + s * 16384
      · have hss : s' = s := by omega
        have hdd : i' / 8 = i / 8 := by omega
        have hii : i' ≠ i := fun hcon => hne ⟨hss, hcon⟩
        have hk8 : i' % 8 ≠ i % 8 := by omega
        rw [if_pos (show i' / 8 + s' * 16384 + 2048 = i / 8 + s * 16384 + 2048 by omega),
          hcoll]
        by_cases hc : (if i = 0 then BlockArrayEntry.BlockArrayDescriptor
            else if t = BlockArrayEntry.BlockArrayDescriptor then BlockArrayEntry.Allocated
            else t) = BlockArrayEntry.InodeBlock
        · rw [if_pos hc]
          exact bit_or_other _ _ _ (by omega) hk8
        · rw [if_neg hc]
          exact bit_clear_other _ _ _ (by omega) hk8
      · rw [if_neg (show ¬ (i' / 8 + s' * 16384 + 2048 = i / 8 + s * 16384 + 2048) by omega),
          if_neg (show ¬ (i' / 8 + s' * 16384 + 2048 = i / 8 + s * 16384) by omega)]

/-- `set` succeeds whenever both bitmap bytes are on the device. -/
theorem set_ok_of_lt (d : DiskM) (s i : Nat) (t : BlockArrayEntry)
    (h : i / 8 + s * BLOCKS_PER_BLOCKARRAY + 2048 < d.size) :
    (set d s i t).2 = .ok () := by
  unfold set
  by_cases hle : BLOCKS_PER_BLOCKARRAY ≤ i
  · rw [if_pos hle]
  · rw [if_neg hle]
    simp only [DiskM.readU8, DiskM.writeU8, if_pos (show i / 8 + s * BLOCKS_PER_BLOCKARRAY < d.size by omega),
      if_pos h]

/-- `get` succeeds whenever both bitmap bytes are on the device. -/
theorem get_ok_of_lt (d : DiskM) (seg idx : Nat)
    (h : idx / 8 + seg * BLOCKS_PER_BLOCKARRAY + 2048 < d.size) :
    ∃ ent, get d seg idx = .ok ent := by
  unfold get
  by_cases hz : idx = 0
  · rw [if_pos hz]
    exact ⟨_, rfl⟩
  · rw [if_neg hz]
    simp only [DiskM.readU8,
      if_pos (show idx / 8 + seg * BLOCKS_PER_BLOCKARRAY < d.size by omega), if_pos h]
    cases hX : (d.bytes (idx / 8 + seg * BLOCKS_PER_BLOCKARRAY)).testBit (idx % 8)
    · simp
    · simp only [hX, Bool.true_eq_false, if_false]
      cases (d.bytes (idx / 8 + seg * BLOCKS_PER_BLOCKARRAY + 2048)).testBit (idx % 8) <;>
        simp

end BlockArrayDescriptor

/-- C5: after `set(s, i, kind)` with `i ∈ [1, 16384)` and a storable kind,
`get(s, i)` returns `kind`; setting `Unused` twice also succeeds and leaves
the entry `Unused`. -/
theorem c5_descriptor_set_get (d : DiskM) (s i : Nat) (kind : BlockArrayEntry)
    (h1 : 1 ≤ i) (h2 : i < BLOCKS_PER_BLOCKARRAY)
    (h3 : kind ≠ .BlockArrayDescriptor) :
    ((BlockArrayDescriptor.set d s i kind).2 = .ok () →
      BlockArrayDescriptor.get (BlockArrayDescriptor.set d s i kind).1 s i = .ok kind) ∧
    ((BlockArrayDescriptor.set d s i .Unused).2 = .ok () →
      (BlockArrayDescriptor.set (BlockArrayDescriptor.set d s i .Unused).1 s i .Unused).2 = .ok ()
      ∧ BlockArrayDescriptor.get
          (BlockArrayDescriptor.set (BlockArrayDescriptor.set d s i .Unused).1 s i .Unused).1 s i
          = .ok .Unused) := by
  constructor
  · intro hok
    exact BlockArrayDescriptor.get_after_set_ok d s i kind h1 h2 h3 hok
  · intro hok
    have hok2 := BlockArrayDescriptor.set_ok_again d s i .Unused .Unused h1 h2 hok
    exact ⟨hok2,
      BlockArrayDescriptor.get_after_set_ok _ s i .Unused h1 h2 (by simp) hok2⟩

/-- Witness for C5 at a concrete all-zero disk, segment 0, index 5. -/
theorem c5_descriptor_set_get_witness :
    (1 ≤ 5 ∧ 5 < BLOCKS_PER_BLOCKARRAY ∧
      (BlockArrayDescriptor.set dW 0 5 .Allocated).2 = .ok () ∧
      (BlockArrayDescriptor.set dW 0 5 .Unused).2 = .ok ()) ∧
    BlockArrayDescriptor.get (BlockArrayDescriptor.set dW 0 5 .Allocated).1 0 5 =
      .ok .Allocated ∧
    BlockArrayDescriptor.get
      (BlockArrayDescriptor.set (BlockArrayDescriptor.set dW 0 5 .Unused).1 0 5 .Unused).1 0 5
      = .ok .Unused :=
  ⟨⟨by decide, by decide, by decide, by decide⟩,
    (c5_descriptor_set_get dW 0 5 .Allocated (by decide) (by decide) (by decide)).1 (by decide),
    ((c5_descriptor_set_get dW 0 5 .Unused (by decide) (by decide) (by decide)).2
      (by decide)).2⟩

/-- C6: `get(s, 0)` always yields `BlockArrayDescriptor` (so it does after
any `set(s, 0, x)`); writing `BlockArrayDescriptor` at `i ≠ 0` performs
exactly the write of `Allocated`, and writing any kind at index 0 performs
exactly the write of `BlockArrayDescriptor`. -/
theorem c6_descriptor_protection (d : DiskM) (s i : Nat) (x : BlockArrayEntry)
    (hi : i ≠ 0) :
    BlockArrayDescriptor.get d s 0 = .ok .BlockArrayDescriptor ∧
    BlockArrayDescriptor.set d s i .BlockArrayDescriptor =
      BlockArrayDescriptor.set d s i .Allocated ∧
    BlockArrayDescriptor.set d s 0 x = BlockArrayDescriptor.set d s 0 .BlockArrayDescriptor ∧
    BlockArrayDescriptor.get (BlockArrayDescriptor.set d s 0 x).1 s 0 =
      .ok .BlockArrayDescriptor := by
  refine ⟨rfl, ?_, ?_, rfl⟩
  · simp [BlockArrayDescriptor.set, hi]
  · simp [BlockArrayDescriptor.set]

/-- Witness for C6 at a concrete all-zero disk, segment 0, index 5. -/
theorem c6_descriptor_protection_witness :
    (5 : Nat) ≠ 0 ∧
    BlockArrayDescriptor.get dW 0 0 = .ok .BlockArrayDescriptor ∧
    BlockArrayDescriptor.set dW 0 5 .BlockArrayDescriptor =
      BlockArrayDescriptor.set dW 0 5 .Allocated ∧
    BlockArrayDescriptor.set dW 0 0 .Unused =
      BlockArrayDescriptor.set dW 0 0 .BlockArrayDescriptor ∧
    BlockArrayDescriptor.get (BlockArrayDescriptor.set dW 0 0 .Unused).1 0 0 =
      .ok .BlockArrayDescriptor :=
  ⟨by decide, (c6_descriptor_protection dW 0 5 .Unused (by decide)).1,
    (c6_descriptor_protection dW 0 5 .Unused (by decide)).2.1,
    (c6_descriptor_protection dW 0 5 .Unused (by decide)).2.2.1,
    (c6_descriptor_protection dW 0 5 .Unused (by decide)).2.2.2⟩

namespace FileSystem

theorem write_superblock_sb (fs : FsM) : (write_superblock fs).1.sb = fs.sb := by
  by_cases hc : 4096 + SB_SIZE ≤ fs.disk.size <;> simp [write_superblock, hc]

theorem clear_block_sb (fs : FsM) (b : Nat) : (clear_block fs b).1.sb = fs.sb := by
  rcases hp : pointer b with e | p <;> simp only [clear_block, hp]
  split <;> rfl

theorem write_superblock_eq_sb {X fs2 : FsM} {r : Except FsErrM Unit}
    (heq : write_superblock X = (fs2, r)) : fs2.sb = X.sb := by
  have h := write_superblock_sb X
  rw [heq] at h
  exact h

theorem clear_block_eq_sb {X fs2 : FsM} {b : Nat} {r : Except FsErrM Unit}
    (heq : clear_block X b = (fs2, r)) : fs2.sb = X.sb := by
  have h := clear_block_sb X b
  rw [heq] at h
  exact h

theorem allocSucceed_tu (fs : FsM) (blk i : Nat) (fi : Bool) :
    (allocSucceed fs blk i fi).1.sb.total_unused = fs.sb.total_unused := by
  unfold allocSucceed
  dsimp only
  rcases hw : write_superblock { fs with sb := { fs.sb with
      earliest_free := i
      earliest_inode_space :=
        if fi then blk * INODES_PER_BLOCK else fs.sb.earliest_inode_space } }
    with ⟨fs2, r⟩
  cases r
  · dsimp only
    rw [write_superblock_eq_sb hw]
  · dsimp only
    rcases hc : clear_block fs2 blk with ⟨fs3, r2⟩
    cases r2 <;> · dsimp only; rw [clear_block_eq_sb hc, write_superblock_eq_sb hw]

theorem allocScan_tu (blk : Nat) (fi : Bool) (fs : FsM) (i n : Nat) :
    (allocScan blk fi fs i n).1.sb.total_unused = fs.sb.total_unused := by
  induction n generalizing fs i with
  | zero =>
    unfold allocScan
    rcases hw : write_superblock fs with ⟨fs2, r⟩
    cases r <;> · dsimp only; rw [write_superblock_eq_sb hw]
  | succ n ih =>
    unfold allocScan
    rcases hg : BlockArrayDescriptor.get fs.disk (i / BLOCKS_PER_BLOCKARRAY)
        (i % BLOCKS_PER_BLOCKARRAY) with e | ent
    · rfl
    · dsimp only
      by_cases he : ent = .Unused
      · rw [if_pos he]
        exact allocSucceed_tu fs blk i fi
      · rw [if_neg he]
        exact ih fs (i + 1)

theorem allocate_block_tu (fs : FsM) (fi : Bool) :
    (allocate_block fs fi).1.sb.total_unused = fs.sb.total_unused := by
  unfold allocate_block
  dsimp only
  by_cases h0 : fs.sb.earliest_free = 0
  · rw [if_pos h0]
  · rw [if_neg h0]
    rcases hset : BlockArrayDescriptor.set fs.disk
        (fs.sb.earliest_free / BLOCKS_PER_BLOCKARRAY)
        (fs.sb.earliest_free % BLOCKS_PER_BLOCKARRAY)
        (if fi then BlockArrayEntry.InodeBlock else BlockArrayEntry.Allocated)
      with ⟨d, r⟩
    cases r
    · dsimp only
      by_cases hlf : fs.sb.earliest_free = fs.sb.last_free <;>
        simp only [hlf, ite_true, ite_false, if_pos, if_neg]
    · dsimp only
      rw [allocScan_tu]
      by_cases hlf : fs.sb.earliest_free = fs.sb.last_free <;>
        simp only [hlf, ite_true, ite_false, if_pos, if_neg]

theorem free_block_tu (fs : FsM) (b : Nat) :
    (free_block fs b).1.sb.total_unused = fs.sb.total_unused := by
  unfold free_block
  dsimp only
  by_cases h0 : b = 0
  · rw [if_pos h0]
  · rw [if_neg h0]
    by_cases hlt : b < fs.sb.earliest_free
    · rw [if_pos hlt]
      rcases hw : write_superblock { fs with sb := { fs.sb with earliest_free := b } }
        with ⟨fs2, r⟩
      cases r
      · dsimp only
        rw [write_superblock_eq_sb hw]
      · dsimp only
        rcases hset : BlockArrayDescriptor.set fs2.disk (b / BLOCKS_PER_BLOCKARRAY)
            (b % BLOCKS_PER_BLOCKARRAY) BlockArrayEntry.Unused with ⟨d, r2⟩
        cases r2
        · dsimp only
          rw [write_superblock_eq_sb hw]
        · dsimp only
          rw [clear_block_sb]
          rw [show ({ fs2 with disk := d } : FsM).sb = fs2.sb from rfl,
            write_superblock_eq_sb hw]
    · rw [if_neg hlt]
      dsimp only
      rcases hset : BlockArrayDescriptor.set fs.disk (b / BLOCKS_PER_BLOCKARRAY)
          (b % BLOCKS_PER_BLOCKARRAY) BlockArrayEntry.Unused with ⟨d, r2⟩
      cases r2
      · rfl
      · dsimp only
        rw [clear_block_sb]

end FileSystem

namespace FileSystem

theorem write_superblock_ok {X fs2 : FsM} (h : write_superblock X = (fs2, .ok ())) :
    fs2 = { X with persisted := X.sb } ∧ 4096 + SB_SIZE ≤ X.disk.size := by
  unfold write_superblock at h
  by_cases hc : 4096 + SB_SIZE ≤ X.disk.size
  · rw [if_pos hc] at h
    injection h with h1 h2
    exact ⟨h1.symm, hc⟩
  · rw [if_neg hc] at h
    injection h with h1 h2
    cases h2

theorem clear_block_ok_spec {X fs2 : FsM} {b : Nat}
    (h : clear_block X b = (fs2, .ok ())) :
    b % BLOCKS_PER_BLOCKARRAY ≠ 0 ∧ b * BLOCK_SIZE + BLOCK_SIZE ≤ X.disk.size ∧
    fs2 = { X with disk := { X.disk with bytes := (fun x =>
      if b * BLOCK_SIZE ≤ x ∧ x < b * BLOCK_SIZE + BLOCK_SIZE then 0
      else X.disk.bytes x) } } := by
  unfold clear_block at h
  rcases hp : pointer b with e | p
  · rw [hp] at h
    injection h with h1 h2
    cases h2
  · rw [hp] at h
    unfold pointer at hp
    by_cases hb : b % BLOCKS_PER_BLOCKARRAY = 0
    · rw [if_pos hb] at hp
      cases hp
    · rw [if_neg hb] at hp
      injection hp with hp2
      subst hp2
      dsimp only at h
      by_cases hsz : b * BLOCK_SIZE + BLOCK_SIZE ≤ X.disk.size
      · rw [if_pos hsz] at h
        injection h with h1 h2
        exact ⟨hb, hsz, h1.symm⟩
      · rw [if_neg hsz] at h
        injection h with h1 h2
        cases h2

theorem allocSucceed_ok (fs : FsM) (blk i : Nat) (fi : Bool) (r : Nat)
    (h : (allocSucceed fs blk i fi).2 = .ok r) :
    r = blk ∧ blk % BLOCKS_PER_BLOCKARRAY ≠ 0 := by
  unfold allocSucceed at h
  dsimp only at h
  rcases hw : write_superblock { fs with sb := { fs.sb with
      earliest_free := i
      earliest_inode_space :=
        if fi then blk * INODES_PER_BLOCK else fs.sb.earliest_inode_space } }
    with ⟨fs2, r2⟩
  rw [hw] at h
  cases r2
  · simp at h
  · dsimp only at h
    rcases hc : clear_block fs2 blk with ⟨fs3, r3⟩
    rw [hc] at h
    cases r3
    · simp at h
    · dsimp only at h
      obtain ⟨hb, _, _⟩ := clear_block_ok_spec hc
      injection h with h2
      exact ⟨h2.symm, hb⟩

theorem allocScan_ok_basic (blk : Nat) (fi : Bool) (fs : FsM) (i n r : Nat)
    (h : (allocScan blk fi fs i n).2 = .ok r) :
    r = blk ∧ blk % BLOCKS_PER_BLOCKARRAY ≠ 0 := by
  induction n generalizing fs i with
  | zero =>
    unfold allocScan at h
    rcases hw : write_superblock fs with ⟨fs2, r2⟩
    rw [hw] at h
    cases r2 <;> simp at h
  | succ n ih =>
    unfold allocScan at h
    rcases hg : BlockArrayDescriptor.get fs.disk (i / BLOCKS_PER_BLOCKARRAY)
        (i % BLOCKS_PER_BLOCKARRAY) with e | ent
    · rw [hg] at h
      simp at h
    · rw [hg] at h
      dsimp only at h
      by_cases he : ent = .Unused
      · rw [if_pos he] at h
        exact allocSucceed_ok fs blk i fi r h
      · rw [if_neg he] at h
        exact ih fs (i + 1) h

theorem allocSucceed_ok_spec (fs : FsM) (blk i : Nat) (fi : Bool) (r : Nat)
    (h : (allocSucceed fs blk i fi).2 = .ok r) :
    r = blk ∧
    blk % BLOCKS_PER_BLOCKARRAY ≠ 0 ∧
    (allocSucceed fs blk i fi).1.disk.size = fs.disk.size ∧
    (allocSucceed fs blk i fi).1.sb = { fs.sb with
      earliest_free := i
      earliest_inode_space :=
        if fi then blk * INODES_PER_BLOCK else fs.sb.earliest_inode_space } ∧
    (allocSucceed fs blk i fi).1.persisted = (allocSucceed fs blk i fi).1.sb ∧
    (∀ x, (allocSucceed fs blk i fi).1.disk.bytes x =
      if blk * BLOCK_SIZE ≤ x ∧ x < blk * BLOCK_SIZE + BLOCK_SIZE then 0
      else fs.disk.bytes x) := by
  unfold allocSucceed at h ⊢
  dsimp only at h ⊢
  rcases hw : write_superblock { fs with sb := { fs.sb with
      earliest_free := i
      earliest_inode_space :=
        if fi then blk * INODES_PER_BLOCK else fs.sb.earliest_inode_space } }
    with ⟨fs2, r2⟩
  rw [hw] at h
  cases r2
  · simp at h
  case ok u =>
    cases u
    dsimp only at h ⊢
    rcases hc : clear_block fs2 blk with ⟨fs3, r3⟩
    rw [hc] at h
    cases r3
    · simp at h
    case ok u2 =>
      cases u2
      dsimp only at h ⊢
      obtain ⟨hw1, hw2⟩ := write_superblock_ok hw
      obtain ⟨hmod, hsz3, hfs3⟩ := clear_block_ok_spec hc
      subst hw1
      subst hfs3
      injection h with h2
      exact ⟨h2.symm, hmod, rfl, rfl, rfl, fun x => rfl⟩

theorem allocScan_ok_spec (blk : Nat) (fi : Bool) (fs : FsM) (i n r : Nat)
    (h : (allocScan blk fi fs i n).2 = .ok r) :
    r = blk ∧
    blk % BLOCKS_PER_BLOCKARRAY ≠ 0 ∧
    (allocScan blk fi fs i n).1.disk.size = fs.disk.size ∧
    (∃ j, i ≤ j ∧ j < i + n ∧
      BlockArrayDescriptor.get fs.disk (j / BLOCKS_PER_BLOCKARRAY)
        (j % BLOCKS_PER_BLOCKARRAY) = .ok .Unused ∧
      (∀ k, i ≤ k → k < j →
        BlockArrayDescriptor.get fs.disk (k / BLOCKS_PER_BLOCKARRAY)
          (k % BLOCKS_PER_BLOCKARRAY) ≠ .ok .Unused) ∧
      (allocScan blk fi fs i n).1.sb = { fs.sb with
        earliest_free := j
        earliest_inode_space :=
          if fi then blk * INODES_PER_BLOCK else fs.sb.earliest_inode_space }) ∧
    (allocScan blk fi fs i n).1.persisted = (allocScan blk fi fs i n).1.sb ∧
    (∀ x, (allocScan blk fi fs i n).1.disk.bytes x =
      if blk * BLOCK_SIZE ≤ x ∧ x < blk * BLOCK_SIZE + BLOCK_SIZE then 0
      else fs.disk.bytes x) := by
  induction n generalizing fs i with
  | zero =>
    unfold allocScan at h
    rcases hw : write_superblock fs with ⟨fs2, r2⟩
    rw [hw] at h
    cases r2 <;> simp at h
  | succ n ih =>
    unfold allocScan at h ⊢
    rcases hg : BlockArrayDescriptor.get fs.disk (i / BLOCKS_PER_BLOCKARRAY)
        (i % BLOCKS_PER_BLOCKARRAY) with e | ent
    · rw [hg] at h
      simp at h
    · rw [hg] at h
      dsimp only at h ⊢
      by_cases he : ent = .Unused
      · rw [if_pos he] at h ⊢
        obtain ⟨h1, h2, h3, h4, h5, h6⟩ := allocSucceed_ok_spec fs blk i fi r h
        refine ⟨h1, h2, h3, ⟨i, le_refl i, by omega, ?_, ?_, h4⟩, h5, h6⟩
        · rw [hg, he]
        · intro k hk1 hk2
          exact ((by omega : False)).elim
      · rw [if_neg he] at h ⊢
        obtain ⟨h1, h2, h3, ⟨j, hj1, hj2, hj3, hj4, hj5⟩, h5, h6⟩ := ih fs (i + 1) h
        refine ⟨h1, h2, h3, ⟨j, by omega, by omega, hj3, ?_, hj5⟩, h5, h6⟩
        intro k hk1 hk2
        by_cases hki : k = i
        · subst hki
          rw [hg]
          intro hcon
          injection hcon with hcon2
          exact he hcon2
        · exact hj4 k (by omega) hk2

theorem allocScan_none (blk : Nat) (fi : Bool) (fs : FsM) (i n : Nat)
    (hget : ∀ k, i ≤ k → k < i + n → ∃ ent, ent ≠ BlockArrayEntry.Unused ∧
      BlockArrayDescriptor.get fs.disk (k / BLOCKS_PER_BLOCKARRAY)
        (k % BLOCKS_PER_BLOCKARRAY) = .ok ent)
    (hsb : 4096 + SB_SIZE ≤ fs.disk.size) :
    allocScan blk fi fs i n = ({ fs with persisted := fs.sb }, .error .NoSpace) := by
  induction n generalizing i with
  | zero =>
    unfold allocScan write_superblock
    rw [if_pos hsb]
  | succ n ih =>
    unfold allocScan
    obtain ⟨ent, hne, hg⟩ := hget i (le_refl i) (by omega)
    rw [hg]
    dsimp only
    rw [if_neg hne]
    exact ih (i + 1) (fun k hk1 hk2 => hget k (by omega) (by omega))

end FileSystem

/-- C4: block ids that are multiples of 16384 are descriptor blocks:
`free_block` fails on them with an error, `pointer` fails with
`InvalidBlock`, and a successful `allocate_block` never returns one; for
every other id `pointer` yields `id * 4096`. -/
theorem c4_descriptor_blocks_protected (fs : FsM) (fi : Bool) (b : Nat) :
    (b % BLOCKS_PER_BLOCKARRAY = 0 →
      (∃ e, (FileSystem.free_block fs b).2 = .error e) ∧
      FileSystem.pointer b = .error .InvalidBlock ∧
      (∀ r, (FileSystem.allocate_block fs fi).2 = .ok r → r ≠ b)) ∧
    (b % BLOCKS_PER_BLOCKARRAY ≠ 0 → FileSystem.pointer b = .ok (b * BLOCK_SIZE)) := by
  constructor
  · intro hb
    refine ⟨?_, ?_, ?_⟩
    · unfold FileSystem.free_block
      by_cases h0 : b = 0
      · rw [if_pos h0]
        exact ⟨.InvalidBlock, rfl⟩
      · rw [if_neg h0]
        dsimp only
        by_cases hlt : b < fs.sb.earliest_free
        · rw [if_pos hlt]
          rcases hw : FileSystem.write_superblock
              { fs with sb := { fs.sb with earliest_free := b } } with ⟨fs2, r⟩
          cases r
          · dsimp only
            exact ⟨_, rfl⟩
          · dsimp only
            rcases hset : BlockArrayDescriptor.set fs2.disk (b / BLOCKS_PER_BLOCKARRAY)
                (b % BLOCKS_PER_BLOCKARRAY) BlockArrayEntry.Unused with ⟨d, r2⟩
            cases r2
            · dsimp only
              exact ⟨_, rfl⟩
            · dsimp only
              unfold FileSystem.clear_block FileSystem.pointer
              rw [if_pos hb]
              exact ⟨.InvalidBlock, rfl⟩
        · rw [if_neg hlt]
          dsimp only
          rcases hset : BlockArrayDescriptor.set fs.disk (b / BLOCKS_PER_BLOCKARRAY)
              (b % BLOCKS_PER_BLOCKARRAY) BlockArrayEntry.Unused with ⟨d, r2⟩
          cases r2
          · dsimp only
            exact ⟨_, rfl⟩
          · dsimp only
            unfold FileSystem.clear_block FileSystem.pointer
            rw [if_pos hb]
            exact ⟨.InvalidBlock, rfl⟩
    · unfold FileSystem.pointer
      rw [if_pos hb]
    · intro r hok
      unfold FileSystem.allocate_block at hok
      dsimp only at hok
      by_cases h0 : fs.sb.earliest_free = 0
      · rw [if_pos h0] at hok
        simp at hok
      · rw [if_neg h0] at hok
        rcases hset : BlockArrayDescriptor.set fs.disk
            (fs.sb.earliest_free / BLOCKS_PER_BLOCKARRAY)
            (fs.sb.earliest_free % BLOCKS_PER_BLOCKARRAY)
            (if fi then BlockArrayEntry.InodeBlock else BlockArrayEntry.Allocated)
          with ⟨d, r2⟩
        rw [hset] at hok
        cases r2
        · simp at hok
        · dsimp only at hok
          obtain ⟨hr, hmod⟩ := FileSystem.allocScan_ok_basic _ _ _ _ _ _ hok
          intro hcon
          rw [hcon] at hr
          rw [hr] at hb
          exact hmod hb
  · intro hb
    unfold FileSystem.pointer
    rw [if_neg hb]

/-- Witness for C4 on `fs300` with the descriptor block 16384 and the data
block 3 (which `allocate_block` indeed returns). -/
theorem c4_descriptor_blocks_protected_witness :
    ((16384 : Nat) % BLOCKS_PER_BLOCKARRAY = 0 ∧
      (∃ e, (FileSystem.free_block fs300 16384).2 = .error e) ∧
      FileSystem.pointer 16384 = .error .InvalidBlock ∧
      ((FileSystem.allocate_block fs300 false).2 = .ok 3 ∧ (3 : Nat) ≠ 16384)) ∧
    ((3 : Nat) % BLOCKS_PER_BLOCKARRAY ≠ 0 ∧
      FileSystem.pointer 3 = .ok (3 * BLOCK_SIZE)) :=
  ⟨⟨by decide,
    ((c4_descriptor_blocks_protected fs300 false 16384).1 (by decide)).1,
    ((c4_descriptor_blocks_protected fs300 false 16384).1 (by decide)).2.1,
    by decide,
    ((c4_descriptor_blocks_protected fs300 false 16384).1 (by decide)).2.2 3 (by decide)⟩,
   by decide,
   (c4_descriptor_blocks_protected fs300 false 3).2 (by decide)⟩

set_option maxHeartbeats 2000000 in
/-- C3: when `allocate_block(for_inodes)` succeeds it returns
`blk = earliest_free`, marks `blk` as `InodeBlock`/`Allocated` in its
segment bitmap, sets the new `earliest_free` to the smallest `Unused` block
found scanning from `blk + 1` below `total_blocks`, persists the
superblock, and zeroes the 4096 bytes of block `blk`; when no `Unused`
block exists after `blk` (on a well-formed device) it persists
`earliest_free = 0` and fails with `NoSpace`. -/
theorem c3_allocate_block_spec (fs : FsM) (fi : Bool) :
    (∀ r, (FileSystem.allocate_block fs fi).2 = .ok r →
      r = fs.sb.earliest_free ∧
      BlockArrayDescriptor.get (FileSystem.allocate_block fs fi).1.disk
          (fs.sb.earliest_free / BLOCKS_PER_BLOCKARRAY)
          (fs.sb.earliest_free % BLOCKS_PER_BLOCKARRAY)
        = .ok (if fi then .InodeBlock else .Allocated) ∧
      (∃ j, fs.sb.earliest_free < j ∧ j < fs.sb.total_blocks ∧
        BlockArrayDescriptor.get fs.disk (j / BLOCKS_PER_BLOCKARRAY)
          (j % BLOCKS_PER_BLOCKARRAY) = .ok .Unused ∧
        (∀ k, fs.sb.earliest_free < k → k < j →
          BlockArrayDescriptor.get fs.disk (k / BLOCKS_PER_BLOCKARRAY)
            (k % BLOCKS_PER_BLOCKARRAY) ≠ .ok .Unused) ∧
        (FileSystem.allocate_block fs fi).1.sb.earliest_free = j) ∧
      (FileSystem.allocate_block fs fi).1.persisted =
        (FileSystem.allocate_block fs fi).1.sb ∧
      (∀ a, a < BLOCK_SIZE →
        (FileSystem.allocate_block fs fi).1.disk.bytes
          (fs.sb.earliest_free * BLOCK_SIZE + a) = 0)) ∧
    (fs.sb.earliest_free ≠ 0 →
      fs.sb.earliest_free < fs.sb.total_blocks →
      3 ≤ fs.sb.total_blocks →
      DeviceHolds fs →
      (∀ j, fs.sb.earliest_free < j → j < fs.sb.total_blocks →
        BlockArrayDescriptor.get fs.disk (j / BLOCKS_PER_BLOCKARRAY)
          (j % BLOCKS_PER_BLOCKARRAY) ≠ .ok .Unused) →
      (FileSystem.allocate_block fs fi).2 = .error .NoSpace ∧
      (FileSystem.allocate_block fs fi).1.sb.earliest_free = 0 ∧
      (FileSystem.allocate_block fs fi).1.persisted =
        (FileSystem.allocate_block fs fi).1.sb) := by
  have hBPB : BLOCKS_PER_BLOCKARRAY = 16384 := rfl
  have hBS : BLOCK_SIZE = 4096 := rfl
  have hSB : SB_SIZE = 88 := rfl
  have hmlt : fs.sb.earliest_free % BLOCKS_PER_BLOCKARRAY < BLOCKS_PER_BLOCKARRAY :=
    Nat.mod_lt _ (by rw [hBPB]; norm_num)
  constructor
  · intro r hok
    unfold FileSystem.allocate_block at hok ⊢
    dsimp only at hok ⊢
    by_cases h0 : fs.sb.earliest_free = 0
    · rw [if_pos h0] at hok
      simp at hok
    · rw [if_neg h0] at hok ⊢
      rcases hset : BlockArrayDescriptor.set fs.disk
          (fs.sb.earliest_free / BLOCKS_PER_BLOCKARRAY)
          (fs.sb.earliest_free % BLOCKS_PER_BLOCKARRAY)
          (if fi then BlockArrayEntry.InodeBlock else BlockArrayEntry.Allocated)
        with ⟨d, r2⟩
      rw [hset] at hok
      cases r2
      · simp at hok
      next u =>
        cases u
        dsimp only at hok ⊢
        have hsetok : (BlockArrayDescriptor.set fs.disk
            (fs.sb.earliest_free / BLOCKS_PER_BLOCKARRAY)
            (fs.sb.earliest_free % BLOCKS_PER_BLOCKARRAY)
            (if fi then BlockArrayEntry.InodeBlock else BlockArrayEntry.Allocated)).2
            = .ok () := by rw [hset]
        have hd1 : (BlockArrayDescriptor.set fs.disk
            (fs.sb.earliest_free / BLOCKS_PER_BLOCKARRAY)
            (fs.sb.earliest_free % BLOCKS_PER_BLOCKARRAY)
            (if fi then BlockArrayEntry.InodeBlock else BlockArrayEntry.Allocated)).1
            = d := by rw [hset]
        obtain ⟨h1, h2, h3, ⟨j, hj1, hj2, hj3, hj4, hj5⟩, h5, h6⟩ :=
          FileSystem.allocScan_ok_spec _ _ _ _ _ _ hok
        have hmne : fs.sb.earliest_free % BLOCKS_PER_BLOCKARRAY ≠ 0 := h2
        have hq : fs.sb.earliest_free % BLOCKS_PER_BLOCKARRAY / 8 +
            fs.sb.earliest_free / BLOCKS_PER_BLOCKARRAY * BLOCKS_PER_BLOCKARRAY + 2048
            < fs.sb.earliest_free * BLOCK_SIZE := by
          rw [hBPB] at hmne ⊢
          rw [hBS]
          omega
        refine ⟨h1, ?_, ⟨j, by omega, by omega, ?_, ?_, by rw [hj5]⟩, h5, ?_⟩
        · -- final bitmap entry of blk
          have hgd : BlockArrayDescriptor.get d
              (fs.sb.earliest_free / BLOCKS_PER_BLOCKARRAY)
              (fs.sb.earliest_free % BLOCKS_PER_BLOCKARRAY)
              = .ok (if fi then .InodeBlock else .Allocated) := by
            have := BlockArrayDescriptor.get_after_set_ok fs.disk
              (fs.sb.earliest_free / BLOCKS_PER_BLOCKARRAY)
              (fs.sb.earliest_free % BLOCKS_PER_BLOCKARRAY)
              (if fi then BlockArrayEntry.InodeBlock else BlockArrayEntry.Allocated)
              (by omega) hmlt (by cases fi <;> simp) hsetok
            rw [hd1] at this
            exact this
          rw [← hgd]
          have haddrU : ¬ (fs.sb.earliest_free * BLOCK_SIZE ≤
                fs.sb.earliest_free % BLOCKS_PER_BLOCKARRAY / 8 +
                fs.sb.earliest_free / BLOCKS_PER_BLOCKARRAY * BLOCKS_PER_BLOCKARRAY ∧
              fs.sb.earliest_free % BLOCKS_PER_BLOCKARRAY / 8 +
                fs.sb.earliest_free / BLOCKS_PER_BLOCKARRAY * BLOCKS_PER_BLOCKARRAY <
                fs.sb.earliest_free * BLOCK_SIZE + BLOCK_SIZE) := by
            intro hcon
            obtain ⟨hc1, hc2⟩ := hcon
            rw [hBPB] at hq hc1
            rw [hBS] at hq hc1
            omega
          have haddrK : ¬ (fs.sb.earliest_free * BLOCK_SIZE ≤
                fs.sb.earliest_free % BLOCKS_PER_BLOCKARRAY / 8 +
                fs.sb.earliest_free / BLOCKS_PER_BLOCKARRAY * BLOCKS_PER_BLOCKARRAY + 2048 ∧
              fs.sb.earliest_free % BLOCKS_PER_BLOCKARRAY / 8 +
                fs.sb.earliest_free / BLOCKS_PER_BLOCKARRAY * BLOCKS_PER_BLOCKARRAY + 2048 <
                fs.sb.earliest_free * BLOCK_SIZE + BLOCK_SIZE) := by
            intro hcon
            obtain ⟨hc1, hc2⟩ := hcon
            rw [hBPB] at hq hc1
            rw [hBS] at hq hc1
            omega
          apply BlockArrayDescriptor.get_congrBits _ _ _ _ hmne h3
          · rw [h6, if_neg haddrU]
          · rw [h6, if_neg haddrK]
        · -- get of found j on the original disk
          have hjne : ¬ (j / BLOCKS_PER_BLOCKARRAY = fs.sb.earliest_free / BLOCKS_PER_BLOCKARRAY ∧
              j % BLOCKS_PER_BLOCKARRAY = fs.sb.earliest_free % BLOCKS_PER_BLOCKARRAY) := by
            rw [hBPB]
            intro ⟨hc1, hc2⟩
            omega
          have := BlockArrayDescriptor.get_after_set_other fs.disk
            (fs.sb.earliest_free / BLOCKS_PER_BLOCKARRAY)
            (fs.sb.earliest_free % BLOCKS_PER_BLOCKARRAY)
            (if fi then BlockArrayEntry.InodeBlock else BlockArrayEntry.Allocated)
            hmlt hsetok (j / BLOCKS_PER_BLOCKARRAY) (j % BLOCKS_PER_BLOCKARRAY)
            (Nat.mod_lt _ (by rw [hBPB]; norm_num)) hjne
          rw [hd1] at this
          rw [← this]
          exact hj3
        · -- minimality on the original disk
          intro k hk1 hk2
          have hkne : ¬ (k / BLOCKS_PER_BLOCKARRAY = fs.sb.earliest_free / BLOCKS_PER_BLOCKARRAY ∧
              k % BLOCKS_PER_BLOCKARRAY = fs.sb.earliest_free % BLOCKS_PER_BLOCKARRAY) := by
            rw [hBPB]
            intro ⟨hc1, hc2⟩
            omega
          have := BlockArrayDescriptor.get_after_set_other fs.disk
            (fs.sb.earliest_free / BLOCKS_PER_BLOCKARRAY)
            (fs.sb.earliest_free % BLOCKS_PER_BLOCKARRAY)
            (if fi then BlockArrayEntry.InodeBlock else BlockArrayEntry.Allocated)
            hmlt hsetok (k / BLOCKS_PER_BLOCKARRAY) (k % BLOCKS_PER_BLOCKARRAY)
            (Nat.mod_lt _ (by rw [hBPB]; norm_num)) hkne
          rw [hd1] at this
          rw [← this]
          exact hj4 k (by omega) hk2
        · -- block blk zeroed
          intro a ha
          rw [h6]
          rw [if_pos ⟨Nat.le_add_right _ _, by omega⟩]
  · intro h0 hlt h3t hdev hnone
    unfold DeviceHolds at hdev
    unfold FileSystem.allocate_block
    dsimp only
    rw [if_neg h0]
    have hbound : fs.sb.earliest_free % BLOCKS_PER_BLOCKARRAY / 8 +
        fs.sb.earliest_free / BLOCKS_PER_BLOCKARRAY * BLOCKS_PER_BLOCKARRAY + 2048
        < fs.disk.size := by
      rw [hBPB]
      rw [hBS] at hdev
      omega
    have hsetok := BlockArrayDescriptor.set_ok_of_lt fs.disk
      (fs.sb.earliest_free / BLOCKS_PER_BLOCKARRAY)
      (fs.sb.earliest_free % BLOCKS_PER_BLOCKARRAY)
      (if fi then BlockArrayEntry.InodeBlock else BlockArrayEntry.Allocated) hbound
    have hszd := (BlockArrayDescriptor.set_ok_spec fs.disk
      (fs.sb.earliest_free / BLOCKS_PER_BLOCKARRAY)
      (fs.sb.earliest_free % BLOCKS_PER_BLOCKARRAY)
      (if fi then BlockArrayEntry.InodeBlock else BlockArrayEntry.Allocated)
      hmlt hsetok).2.1
    rcases hset : BlockArrayDescriptor.set fs.disk
        (fs.sb.earliest_free / BLOCKS_PER_BLOCKARRAY)
        (fs.sb.earliest_free % BLOCKS_PER_BLOCKARRAY)
        (if fi then BlockArrayEntry.InodeBlock else BlockArrayEntry.Allocated)
      with ⟨d, r2⟩
    cases r2
    · rw [hset] at hsetok
      exact absurd hsetok (by simp)
    next u =>
      cases u
      dsimp only
      have hdsz : d.size = fs.disk.size := by
        rw [hset] at hszd
        exact hszd
      have hget : ∀ k, fs.sb.earliest_free + 1 ≤ k →
          k < fs.sb.earliest_free + 1 + (fs.sb.total_blocks - (fs.sb.earliest_free + 1)) →
          ∃ ent, ent ≠ BlockArrayEntry.Unused ∧
            BlockArrayDescriptor.get d (k / BLOCKS_PER_BLOCKARRAY)
              (k % BLOCKS_PER_BLOCKARRAY) = .ok ent := by
        intro k hk1 hk2
        have hklt : k < fs.sb.total_blocks := by omega
        have hkne : ¬ (k / BLOCKS_PER_BLOCKARRAY = fs.sb.earliest_free / BLOCKS_PER_BLOCKARRAY ∧
            k % BLOCKS_PER_BLOCKARRAY = fs.sb.earliest_free % BLOCKS_PER_BLOCKARRAY) := by
          rw [hBPB]
          intro ⟨hc1, hc2⟩
          omega
        have hpres := BlockArrayDescriptor.get_after_set_other fs.disk
          (fs.sb.earliest_free / BLOCKS_PER_BLOCKARRAY)
          (fs.sb.earliest_free % BLOCKS_PER_BLOCKARRAY)
          (if fi then BlockArrayEntry.InodeBlock else BlockArrayEntry.Allocated)
          hmlt hsetok (k / BLOCKS_PER_BLOCKARRAY) (k % BLOCKS_PER_BLOCKARRAY)
          (Nat.mod_lt _ (by rw [hBPB]; norm_num)) hkne
        have hd1 : (BlockArrayDescriptor.set fs.disk
            (fs.sb.earliest_free / BLOCKS_PER_BLOCKARRAY)
            (fs.sb.earliest_free % BLOCKS_PER_BLOCKARRAY)
            (if fi then BlockArrayEntry.InodeBlock else BlockArrayEntry.Allocated)).1
            = d := by rw [hset]
        rw [hd1] at hpres
        obtain ⟨ent, hent⟩ := BlockArrayDescriptor.get_ok_of_lt fs.disk
          (k / BLOCKS_PER_BLOCKARRAY) (k % BLOCKS_PER_BLOCKARRAY)
          (by rw [hBPB]; rw [hBS] at hdev; omega)
        refine ⟨ent, ?_, by rw [hpres]; exact hent⟩
        intro hcon
        subst hcon
        exact hnone k (by omega) hklt hent
      have hsbsz : 4096 + SB_SIZE ≤ d.size := by
        rw [hdsz, hSB]
        rw [hBS] at hdev
        omega
      rw [FileSystem.allocScan_none _ _ _ _ _ hget hsbsz]
      exact ⟨rfl, rfl, rfl⟩

/-- Witness for C3: the success branch on `fs300` (where `allocate_block`
returns block 3 and the next free block is 4) and the failure branch on the
full filesystem `fs4`. -/
theorem c3_allocate_block_spec_witness :
    ((FileSystem.allocate_block fs300 false).2 = .ok 3 ∧
      (3 = fs300.sb.earliest_free ∧
        BlockArrayDescriptor.get (FileSystem.allocate_block fs300 false).1.disk
            (fs300.sb.earliest_free / BLOCKS_PER_BLOCKARRAY)
            (fs300.sb.earliest_free % BLOCKS_PER_BLOCKARRAY)
          = .ok (if false then .InodeBlock else .Allocated) ∧
        (∃ j, fs300.sb.earliest_free < j ∧ j < fs300.sb.total_blocks ∧
          BlockArrayDescriptor.get fs300.disk (j / BLOCKS_PER_BLOCKARRAY)
            (j % BLOCKS_PER_BLOCKARRAY) = .ok .Unused ∧
          (∀ k, fs300.sb.earliest_free < k → k < j →
            BlockArrayDescriptor.get fs300.disk (k / BLOCKS_PER_BLOCKARRAY)
              (k % BLOCKS_PER_BLOCKARRAY) ≠ .ok .Unused) ∧
          (FileSystem.allocate_block fs300 false).1.sb.earliest_free = j) ∧
        (FileSystem.allocate_block fs300 false).1.persisted =
          (FileSystem.allocate_block fs300 false).1.sb ∧
        (∀ a, a < BLOCK_SIZE →
          (FileSystem.allocate_block fs300 false).1.disk.bytes
            (fs300.sb.earliest_free * BLOCK_SIZE + a) = 0))) ∧
    ((FileSystem.allocate_block fs4 false).2 = .error .NoSpace ∧
      (FileSystem.allocate_block fs4 false).1.sb.earliest_free = 0 ∧
      (FileSystem.allocate_block fs4 false).1.persisted =
        (FileSystem.allocate_block fs4 false).1.sb) := by
  constructor
  · exact ⟨by decide, (c3_allocate_block_spec fs300 false).1 3 (by decide)⟩
  · have he3 : fs4.sb.earliest_free = 3 := by decide
    have ht4 : fs4.sb.total_blocks = 4 := by decide
    exact (c3_allocate_block_spec fs4 false).2 (by decide) (by decide) (by decide)
      (by show fs4.sb.total_blocks * BLOCK_SIZE ≤ fs4.disk.size; decide)
      (fun j hj1 hj2 => by
        rw [he3] at hj1
        rw [ht4] at hj2
        exact ((by omega : False)).elim)

/-- C7 is false on the code: immediately after `FileSystem::create(300, ...)`
the descriptor block, the superblock block and the root inode block are all
marked used (3 blocks), but `total_unused = 300 - 1 - 1 = 298` accounts only
for the first two, so `total_unused + used = 301 ≠ 300 = total_blocks`. -/
theorem c7_counterexample_invariant_fails_after_create :
    FileSystem.create 300 nmW 0 = .ok fs300 ∧
    fs300.sb.total_unused + usedCount fs300.disk fs300.sb.total_blocks ≠
      fs300.sb.total_blocks :=
  ⟨rfl, by decide⟩

/-- C7 (amended): the code never maintains `total_unused`: `allocate_block`
and `free_block` leave it unchanged while flipping usage bits, and already
after `create(300, name)` the bitmaps mark one block more than
`total_unused` accounts for, so `total_unused + used = total_blocks + 1`. -/
theorem c7_total_unused_accounting (fs : FsM) (fi : Bool) (b : Nat) :
    (FileSystem.allocate_block fs fi).1.sb.total_unused = fs.sb.total_unused ∧
    (FileSystem.free_block fs b).1.sb.total_unused = fs.sb.total_unused ∧
    FileSystem.create 300 nmW 0 = .ok fs300 ∧
    fs300.sb.total_unused + usedCount fs300.disk fs300.sb.total_blocks =
      fs300.sb.total_blocks + 1 :=
  ⟨FileSystem.allocate_block_tu fs fi, FileSystem.free_block_tu fs b, rfl, by decide⟩

/-- C10: on the reachable state `fs4` (fresh 4-block filesystem, whose only
free block is 3 with nothing free after it), `allocate_block(false)` fails
with `NoSpace` but has already marked block 3 `Allocated` in the segment
bitmap and persisted `earliest_free = 0`; block 3's bytes are untouched
(not zeroed) and the block id is not returned. -/
theorem c10_allocate_block_nonatomic_failure :
    FileSystem.create 4 nmW 0 = .ok fs4 ∧
    fs4.sb.earliest_free = 3 ∧
    ((List.range fs4.sb.total_blocks).all fun j =>
      decide (j ≤ 3) ||
        !decide (BlockArrayDescriptor.get fs4.disk (j / BLOCKS_PER_BLOCKARRAY)
          (j % BLOCKS_PER_BLOCKARRAY) = .ok .Unused)) = true ∧
    alloc4.2 = .error .NoSpace ∧
    BlockArrayDescriptor.get alloc4.1.disk 0 3 = .ok .Allocated ∧
    alloc4.1.sb.earliest_free = 0 ∧
    alloc4.1.persisted = alloc4.1.sb ∧
    ((List.range 64).all fun hi => (List.range 64).all fun lo =>
      alloc4.1.disk.bytes (3 * BLOCK_SIZE + (hi * 64 + lo)) ==
        fs4.disk.bytes (3 * BLOCK_SIZE + (hi * 64 + lo))) = true :=
  ⟨rfl, by decide, by decide, by decide, by decide, by decide, by decide, by decide⟩

/-- C9 counterexample: writing to the root *directory* inode is rejected,
but the error is literally `FsError::NoSpace` — the very space error the
spec says is distinct from it. -/
theorem c9_counterexample_wrong_type_error_is_nospace :
    PRes.errOf (Inode.file_write rootIno300 [1] fs300 64) = some .NoSpace := by decide

/-- C9 (amended): `file_write` on an inode whose type nibble is not
`0x8000` fails immediately, leaving the state unchanged, but the error it
returns is `FsError::NoSpace` itself, not an error distinct from the
insufficient-space error. -/
theorem c9_file_write_wrong_type_amended (ino : InodeM) (buf : List Nat) (fs : FsM)
    (addr : Nat) (h : ino.getType ≠ 0x8000) :
    Inode.file_write ino buf fs addr = .err (fs, ino) .NoSpace := by
  unfold Inode.file_write
  rw [if_pos h]

/-- Witness for C9 on the root directory inode of `fs300`. -/
theorem c9_file_write_wrong_type_amended_witness :
    rootIno300.getType ≠ 0x8000 ∧
      Inode.file_write rootIno300 [1] fs300 64 = .err (fs300, rootIno300) .NoSpace :=
  ⟨by decide, c9_file_write_wrong_type_amended rootIno300 [1] fs300 64 (by decide)⟩

/-- The returned `read_already` count of the `Inode::read` loop never
exceeds `acc + left`. -/
theorem readLoop_le (ino : InodeM) (fs : FsM) :
    ∀ (fuel off : Nat) (buf : List Nat) (acc left n : Nat) (buf2 : List Nat),
      Inode.readLoop ino fs fuel off buf acc left = .ok (n, buf2) → n ≤ acc + left := by
  intro fuel
  induction fuel with
  | zero =>
    intro off buf acc left n buf2 h
    simp only [Inode.readLoop, Except.ok.injEq, Prod.mk.injEq] at h
    omega
  | succ fuel ih =>
    intro off buf acc left n buf2 h
    simp only [Inode.readLoop] at h
    by_cases h0 : min (4096 - off % 4096) left = 0
    · rw [if_pos h0] at h
      simp only [Except.ok.injEq, Prod.mk.injEq] at h
      omega
    · rw [if_neg h0] at h
      cases hr : Inode._read ino off (min (4096 - off % 4096) left) fs with
      | error e => rw [hr] at h; exact absurd h (by simp)
      | ok p =>
        obtain ⟨cnt, data⟩ := p
        rw [hr] at h
        dsimp only at h
        by_cases hc : cnt = 0
        · rw [if_pos hc] at h
          simp only [Except.ok.injEq, Prod.mk.injEq] at h
          omega
        · rw [if_neg hc] at h
          have hrec := ih (off + min (4096 - off % 4096) left) (listWrite buf acc data)
            (acc + min (4096 - off % 4096) left) (left - min (4096 - off % 4096) left)
            n buf2 h
          omega

/-- C8 counterexample: reading 1 byte at offset 0 of a file inode with no
data blocks does not return a short count — the `NoEntry` error from the
unmapped block propagates out of `read` via `?`. -/
theorem c8_counterexample_read_error_propagates :
    Inode.read fileInoW 0 [0] fs300 = .error .NoEntry := by decide

/-- C8 (amended): `Inode::read` is best-effort in that a successful read
never reports more than `buf.len()` bytes, but it is not error-free: when
the very first block of the range is unmapped (`get_block_id` returns
`None`) and the buffer is non-empty, the internal `_read` error `NoEntry`
escapes through the `?` operator instead of being converted into a short
count. -/
theorem c8_read_best_effort_amended :
    (∀ (ino : InodeM) (off : Nat) (buf : List Nat) (fs : FsM) (n : Nat) (buf2 : List Nat),
        Inode.read ino off buf fs = .ok (n, buf2) → n ≤ buf.length) ∧
    (∀ (ino : InodeM) (off : Nat) (buf : List Nat) (fs : FsM),
        buf.length ≠ 0 →
        Inode.get_block_id ino (off / 4096) fs.disk = none →
        Inode.read ino off buf fs = .error .NoEntry) := by
  constructor
  · intro ino off buf fs n buf2 h
    have := readLoop_le ino fs (buf.length + 1) off buf 0 buf.length n buf2 h
    omega
  · intro ino off buf fs hne hb
    unfold Inode.read
    simp only [Inode.readLoop]
    have hpos : ¬ min (4096 - off % 4096) buf.length = 0 := by omega
    rw [if_neg hpos]
    unfold Inode._read
    dsimp only
    rw [hb]

/-- Witness for C8: a successful 1-byte read (count `1 ≤ 1`) on `inoR`, and
the propagated `NoEntry` error on the blockless `fileInoW`. -/
theorem c8_read_best_effort_amended_witness :
    (1 : Nat) ≤ ([0] : List Nat).length ∧
      Inode.read fileInoW 0 [0] fs300 = .error .NoEntry :=
  ⟨c8_read_best_effort_amended.1 inoR 0 [0] fs300 1 [0] (by decide),
   c8_read_best_effort_amended.2 fileInoW 0 [0] fs300 (by decide) (by decide)⟩

set_option maxHeartbeats 4000000 in
/-- C2: code bug — inserting the two distinct entries `"a"` (inode 65) and
`"b"` (inode 66) into the empty root directory of `fs300` succeeds in slots
0 and 1, yet iterating the directory yields only the single name `"a"`:
`DirectoryIterator::next` advances the cursor a second time after deciding
to yield an entry, so every other entry is skipped and the round trip fails
already for K = 2. -/
theorem c2_iterator_skips_second_entry :
    c2step1.2 = .ok 0 ∧ c2step2.2 = .ok 1 ∧
      entA.name = [97] ∧ entB.name = [98] ∧ c2names = [[97]] := by decide

/-- `resize_self(2)` on the fresh file inode allocates blocks 3 and 4. -/
theorem c1resized_eq : Inode.resize_self fileInoW 2 fs300 65 = .ok (fs301, fileIno1) () := rfl

/-- With block 0 mapped to 3 and block 1 mapped to 4 on a 300-block device,
the `file_write` data loop panics on its second iteration for a 4097-byte
buffer: the slice bound `start + (i * BLOCK_SIZE + 4096).min(buf.len())`
evaluates to `4096 + 4097 = 8193 > buf.len()`. -/
theorem writeBlocksLoop_panic_4097 (buf : List Nat) (fs : FsM) (ino : InodeM)
    (hlen : buf.length = 4097)
    (hgb0 : Inode.get_block_id ino 0 fs.disk = some 3)
    (hgb1 : ∀ d, Inode.get_block_id ino 1 d = some 4)
    (hsz : fs.disk.size = 1228800) :
    Inode.writeBlocksLoop buf 2 0 fs ino = .panic := by
  show Inode.writeBlocksLoop buf (0 + 1 + 1) 0 fs ino = .panic
  rw [Inode.writeBlocksLoop]
  rw [hgb0]
  dsimp only
  rw [show FileSystem.pointer 3 = .ok 12288 from rfl]
  dsimp only
  simp only [listSlice, DiskM.writeExact, DiskM.writeLossy, hlen, BLOCK_SIZE]
  norm_num
  simp only [List.length_take, List.length_drop, hlen]
  norm_num [hsz]
  rw [Inode.writeBlocksLoop]
  rw [hgb1]
  dsimp only
  rw [show FileSystem.pointer 4 = .ok 16384 from rfl]
  dsimp only
  simp only [listSlice, hlen, BLOCK_SIZE]
  norm_num

/-- C1: code bug — far from round-tripping, `file_write` cannot even
complete a multi-block write: for every 4097-byte buffer (which satisfies
the claim's `len(buf) % 4096 ≠ 0` side condition), writing it to a fresh
file inode of `fs300` panics with an out-of-range slice index, because the
loop's slice end is `start + (i * BLOCK_SIZE + 4096).min(buf.len())`
instead of `(start + 4096).min(buf.len())`. -/
theorem c1_file_write_multi_block_panics (buf : List Nat) (hlen : buf.length = 4097) :
    buf.length % 4096 ≠ 0 ∧ Inode.file_write fileInoW buf fs300 65 = .panic := by
  refine ⟨by omega, ?_⟩
  unfold Inode.file_write
  rw [if_neg (by decide : ¬ fileInoW.getType ≠ 0x8000)]
  dsimp only
  rw [hlen]
  rw [show ((4097 : Nat) + BLOCK_SIZE - 1) / BLOCK_SIZE = 2 from rfl]
  rw [c1resized_eq]
  dsimp only
  rw [writeBlocksLoop_panic_4097 buf fs301 fileIno1 hlen rfl (fun _ => rfl) rfl]

/-- Witness for C1 on the concrete buffer `[7, 7, …, 7]` of length 4097. -/
theorem c1_file_write_multi_block_panics_witness :
    (List.replicate 4097 7).length = 4097 ∧
      ((List.replicate 4097 7).length % 4096 ≠ 0 ∧
        Inode.file_write fileInoW (List.replicate 4097 7) fs300 65 = .panic) :=
  ⟨by rw [List.length_replicate],
   c1_file_write_multi_block_panics (List.replicate 4097 7) (by rw [List.length_replicate])⟩
